import Mathlib

/-!
# QuickFix: the service-request lifecycle

A shallow embedding of the request routes of `src/requests.js` together with the
Mongoose schemas of `src/Request.js` and `src/User.js`, the profile update of
`src/professionals.js` and the category lookup of `src/users.js`.

* A route handler is a function from the store, the authenticated caller, the
  request parameters and the clock to a response and a new store.
* The caller is the `req.user` document that the `auth` middleware resolves.
* Object ids are natural numbers; a new document receives the store's next id.
  The handlers on `Nat` ids are the routes on well-formed ids; `IdParam` and
  the handlers named `...Of` add the ids that are no ObjectId, on which
  `findById` throws.
  Dates are natural numbers, and `new Date()` is the clock argument `now`.
* Body fields that may be absent are `Option`s; a string field is falsy when it
  is absent or the empty string. A field of another schema type is `Given`:
  the value its cast produces, or a value its cast rejects.
* `save` runs the schema validators on the whole document; a validation error
  is thrown inside the handler's `try` block and becomes the 500 response of
  its `catch` block.
* A `TypeError` raised inside a handler becomes the same 500 response.
* The read routes return the unchanged store next to their answer. A
  `Response` carries the request before `populate`; `populate` and `Answer`
  give the request as it is sent.
* The constant `ALLOWED_SKILLS` of `constants/skills` is an argument of the
  definitions that read it.
-/

namespace QuickFix

/-! ## Data model -/

/-- User document of `src/User.js`. -/
structure User where
  _id : Nat
  name : String
  email : String
  passwordHash : String
  role : String
  skills : List String
  deriving DecidableEq

/-- The nested `location` path of `RequestSchema`. -/
structure Location where
  address : String
  city : String
  state : String
  zipCode : String
  deriving DecidableEq

/-- The nested `budget` path of `RequestSchema`. -/
structure Budget where
  min : Option Int
  max : Option Int
  deriving DecidableEq

/-- Request document of `src/Request.js` (with the two `timestamps` paths). -/
structure Request where
  _id : Nat
  title : String
  description : String
  category : String
  status : String
  homeowner : Nat
  professional : Option Nat
  location : Location
  urgency : String
  budget : Budget
  scheduledDate : Option Nat
  completedDate : Option Nat
  createdAt : Nat
  updatedAt : Nat
  deriving DecidableEq

/-- The two collections and the id generator. -/
structure State where
  users : List User
  requests : List Request
  nextId : Nat
  deriving DecidableEq

/-- A store with the given identity directory and no request. -/
def State.empty (users : List User) : State :=
  { users := users, requests := [], nextId := 0 }

/-- The outcome of a handler: the status code with the request document at
hand, before `populate`, or `res.status(code).json({ error })`. -/
inductive Response where
  | success (code : Nat) (request : Request)
  | failure (code : Nat) (error : String)
  deriving DecidableEq

/-- The `location` object of a creation body. -/
structure LocationBody where
  address : Option String
  city : Option String
  state : Option String
  zipCode : Option String
  deriving DecidableEq

/-- A body value at a path whose schema type is not `String`, as the cast of
that type sees it: a value the cast turns into `value`, or a value the cast
rejects with a `CastError`. -/
inductive Given (α : Type) where
  | cast (value : α)
  | uncastable
  deriving DecidableEq

/-- The body of `POST /api/requests`. The string paths hold a string or are
absent; `budget` and `scheduledDate` hold any value or are absent. -/
structure CreateBody where
  title : Option String
  description : Option String
  category : Option String
  location : Option LocationBody
  urgency : Option String
  budget : Option (Given Budget)
  scheduledDate : Option (Given Nat)
  deriving DecidableEq

/-! ## Schema -/

/-- The category enumeration (`validCategories`, and the `enum` of `category`). -/
def validCategories : List String :=
  ["plumbing", "electrical", "carpentry", "painting", "cleaning"]

/-- The status enumeration (`validStatuses`, and the `enum` of `status`). -/
def validStatuses : List String :=
  ["pending", "accepted", "in_progress", "completed", "cancelled"]

/-- The `enum` of `urgency`. -/
def validUrgencies : List String :=
  ["low", "medium", "high", "emergency"]

/-- White space and line terminators removed by `String.prototype.trim`. -/
def isJsWhiteSpace (c : Char) : Bool :=
  decide (c.toNat ∈ [0x09, 0x0A, 0x0B, 0x0C, 0x0D, 0x20, 0xA0, 0x1680, 0x2028, 0x2029,
    0x202F, 0x205F, 0x3000, 0xFEFF]) || (decide (0x2000 ≤ c.toNat) && decide (c.toNat ≤ 0x200A))

/-- The setter installed by `trim: true`. -/
def jsTrim (s : String) : String :=
  String.mk ((s.toList.dropWhile isJsWhiteSpace).reverse.dropWhile isJsWhiteSpace).reverse

/-- The validators of `RequestSchema`, as run by `save`: `required` on a string
path rejects the empty string, `enum` rejects a value outside the list. -/
def Request.validate (r : Request) : Bool :=
  decide (r.title ≠ "") && decide (r.description ≠ "") &&
  decide (r.category ∈ validCategories) &&
  decide (r.status ∈ validStatuses) &&
  decide (r.location.address ≠ "") && decide (r.location.city ≠ "") &&
  decide (r.location.state ≠ "") && decide (r.location.zipCode ≠ "") &&
  decide (r.urgency ∈ validUrgencies)

/-! ## Store access -/

/-- The lookup `Request.findById`. -/
def Request.findById (s : State) (id : Nat) : Option Request :=
  s.requests.find? (fun r => decide (r._id = id))

/-- The lookup `User.findById`. -/
def User.findById (s : State) (id : Nat) : Option User :=
  s.users.find? (fun u => decide (u._id = id))

/-- Overwrite the stored document that has the id of `doc`. -/
def updateOne : List Request → Request → List Request
  | [], _ => []
  | x :: xs, doc => if x._id = doc._id then doc :: xs else x :: updateOne xs doc

/-- The call `doc.save()` on a document loaded as `orig`: validate, stamp `updatedAt`
when a path was modified, write. `none` stands for the thrown validation error. -/
def Request.save (s : State) (orig doc : Request) (now : Nat) : Option (Request × State) :=
  if doc.validate then
    let doc1 := if doc = orig then doc else { doc with updatedAt := now }
    some (doc1, { s with requests := updateOne s.requests doc1 })
  else none

/-- The call `doc.save()` on a new document: validate, assign the id and both
timestamps, insert. -/
def Request.saveNew (s : State) (doc : Request) (now : Nat) : Option (Request × State) :=
  if doc.validate then
    let doc1 := { doc with _id := s.nextId, createdAt := now, updatedAt := now }
    some (doc1, { s with requests := s.requests ++ [doc1], nextId := s.nextId + 1 })
  else none

/-- The response of every `catch` block. -/
def internalError : Response := .failure 500 "Internal server error"

/-! ## Route handlers -/

/-- The largest time value of a `Date`, in milliseconds. -/
def maxDate : Nat := 8640000000000000

/-- The cast of the `budget` path by `new Request`: absent bounds when the
field is absent, `none` when the cast fails. -/
def castBudget : Option (Given Budget) → Option Budget
  | none => some { min := none, max := none }
  | some (.cast budget) => some budget
  | some .uncastable => none

/-- The cast of the `scheduledDate` path by `new Request`: `none` when the cast
fails, which it also does on a time beyond `maxDate`. -/
def castDate : Option (Given Nat) → Option (Option Nat)
  | none => some none
  | some (.cast t) => if t ≤ maxDate then some (some t) else none
  | some .uncastable => none

/-- The expression `urgency || 'medium'`. -/
def urgencyOrDefault : Option String → String
  | some u => if u = "" then "medium" else u
  | none => "medium"

/-- Handler of `POST /api/requests`. A `CastError` of `new Request` is thrown
by `save` and answered by the `catch` block. -/
def createRequest (s : State) (caller : User) (body : CreateBody) (now : Nat) :
    Response × State :=
  match body.title, body.description, body.category, body.location with
  | some title, some description, some category, some location =>
    if title = "" ∨ description = "" ∨ category = "" then
      (.failure 400 "Missing required fields", s)
    else if !validCategories.contains category then
      (.failure 400 "Invalid category", s)
    else
      match location.address, location.city, location.state, location.zipCode with
      | some address, some city, some state, some zipCode =>
        if address = "" ∨ city = "" ∨ state = "" ∨ zipCode = "" then
          (.failure 400 "Missing location information", s)
        else
          match castBudget body.budget, castDate body.scheduledDate with
          | some budget, some scheduledDate =>
            let newRequest : Request :=
              { _id := s.nextId
                title := jsTrim title
                description := jsTrim description
                category := category
                status := "pending"
                homeowner := caller._id
                professional := none
                location :=
                  { address := address, city := city, state := state, zipCode := zipCode }
                urgency := urgencyOrDefault body.urgency
                budget := budget
                scheduledDate := scheduledDate
                completedDate := none
                createdAt := now
                updatedAt := now }
            match newRequest.saveNew s now with
            | some (saved, s1) => (.success 201 saved, s1)
            | none => (internalError, s)
          | _, _ => (internalError, s)
      | _, _, _, _ => (.failure 400 "Missing location information", s)
  | _, _, _, _ => (.failure 400 "Missing required fields", s)

/-- Handler of `POST /api/requests/:id/send`. An id is never falsy, so
`!professionalId` is the absence of the field. -/
def assignProfessional (s : State) (caller : User) (requestId : Nat)
    (professionalId : Option Nat) (now : Nat) : Response × State :=
  match professionalId with
  | none => (.failure 400 "Professional ID is required", s)
  | some professionalId =>
    match Request.findById s requestId with
    | none => (.failure 404 "Request not found", s)
    | some request =>
      if request.homeowner ≠ caller._id then
        (.failure 403 "Not authorized to modify this request", s)
      else
        match User.findById s professionalId with
        | none => (.failure 404 "Professional not found", s)
        | some professional =>
          if professional.role ≠ "professional" then
            (.failure 404 "Professional not found", s)
          else if !professional.skills.contains request.category then
            (.failure 400 "Professional does not have the required skill", s)
          else
            match Request.save s request
                { request with professional := some professionalId, status := "pending" } now with
            | some (saved, s1) => (.success 200 saved, s1)
            | none => (internalError, s)

/-- Handler of `PUT /api/requests/:id/status`. Reading `request.professional.toString()`
on a request without professional throws, which the `catch` block answers. -/
def advanceStatus (s : State) (caller : User) (requestId : Nat)
    (status : Option String) (now : Nat) : Response × State :=
  match status with
  | none => (.failure 400 "Status is required", s)
  | some status =>
    if status = "" then
      (.failure 400 "Status is required", s)
    else if !validStatuses.contains status then
      (.failure 400 "Invalid status", s)
    else
      match Request.findById s requestId with
      | none => (.failure 404 "Request not found", s)
      | some request =>
        match request.professional with
        | none => (internalError, s)
        | some professional =>
          if professional ≠ caller._id then
            (.failure 403 "Not authorized to modify this request", s)
          else
            let request1 := { request with status := status }
            let request2 :=
              if status = "completed" then { request1 with completedDate := some now }
              else request1
            match Request.save s request request2 now with
            | some (saved, s1) => (.success 200 saved, s1)
            | none => (internalError, s)

/-! ## Sequences of calls -/

/-- One call of a mutating operation of the engine. -/
inductive Op where
  | create (caller : User) (body : CreateBody) (now : Nat)
  | assign (caller : User) (requestId : Nat) (professionalId : Option Nat) (now : Nat)
  | advance (caller : User) (requestId : Nat) (status : Option String) (now : Nat)
  deriving DecidableEq

/-- Perform one call. -/
def step (s : State) : Op → Response × State
  | .create caller body now => createRequest s caller body now
  | .assign caller requestId professionalId now =>
    assignProfessional s caller requestId professionalId now
  | .advance caller requestId status now => advanceStatus s caller requestId status now

/-- The store after a sequence of calls. -/
def run (s : State) : List Op → State
  | [] => s
  | op :: ops => run (step s op).2 ops

/-- Stores reachable from an empty store. -/
def Reachable (s : State) : Prop :=
  ∃ users ops, s = run (State.empty users) ops

/-! ## Error taxonomy -/

/-- The failure kinds of the specification. -/
inductive ErrorKind where
  | ValidationError
  | NotFound
  | Forbidden
  | InvalidAssignment
  | IllegalTransition
  | Conflict
  | Internal
  deriving DecidableEq

/-- How the responses of `src/requests.js` read in the taxonomy: 403 is
`Forbidden`, 404 is `NotFound`, the 400 of the skill check is
`InvalidAssignment`, every other 400 is `ValidationError`, and the 500 of the
`catch` blocks is none of the specified kinds. No response of the routes reads
as `IllegalTransition` or `Conflict`. -/
def Response.kind : Response → Option ErrorKind
  | .success _ _ => none
  | .failure code error =>
    if code = 403 then some .Forbidden
    else if code = 404 then some .NotFound
    else if code = 400 then
      if error = "Professional does not have the required skill" then some .InvalidAssignment
      else some .ValidationError
    else some .Internal

/-- The response is an error response. -/
def Response.isFailure : Response → Bool
  | .success _ _ => false
  | .failure _ _ => true

/-! ## Auxiliary definitions for the statements -/

/-- The document `PUT /:id/status` hands to `save`. -/
def advancedDoc (request : Request) (target : String) (now : Nat) : Request :=
  if target = "completed" then { request with status := target, completedDate := some now }
  else { request with status := target }

/-- The document `POST /` hands to `save`. -/
def createdDoc (s : State) (caller : User) (body : CreateBody) (title description category : String)
    (location : Location) (now : Nat) : Request :=
  { _id := s.nextId
    title := jsTrim title
    description := jsTrim description
    category := category
    status := "pending"
    homeowner := caller._id
    professional := none
    location := location
    urgency := urgencyOrDefault body.urgency
    budget := (castBudget body.budget).getD { min := none, max := none }
    scheduledDate := (castDate body.scheduledDate).getD none
    completedDate := none
    createdAt := now
    updatedAt := now }

/-- What holds of every stored document of a reachable store. -/
def Request.Good (r : Request) : Prop :=
  r.validate = true ∧ (r.status = "completed" → r.completedDate.isSome = true)

/-- Every stored document is good and older than the id generator. -/
def State.Inv (s : State) : Prop :=
  ∀ r ∈ s.requests, r.Good ∧ r._id < s.nextId

/-- The status edges of the transition table of the specification (section 4.1),
with the cancellation from `accepted` that its list of states adds. The routes
have no such table; the definition only states what the table would forbid. -/
def specEdge (current target : String) : Bool :=
  (current, target) ∈ [("pending", "accepted"), ("pending", "cancelled"),
    ("accepted", "in_progress"), ("accepted", "cancelled"), ("in_progress", "completed")]

/-! ## Sample data -/

/-- A client. -/
def exClient : User :=
  { _id := 1, name := "Asha", email := "asha@example.org", passwordHash := "h1",
    role := "client", skills := [] }

/-- A professional with the plumbing skill. -/
def exPlumber : User :=
  { _id := 2, name := "Ben", email := "ben@example.org", passwordHash := "h2",
    role := "professional", skills := ["plumbing"] }

/-- A professional with the electrical skill only. -/
def exElectrician : User :=
  { _id := 3, name := "Chen", email := "chen@example.org", passwordHash := "h3",
    role := "professional", skills := ["electrical"] }

/-- Another client. -/
def exOther : User :=
  { _id := 4, name := "Dana", email := "dana@example.org", passwordHash := "h4",
    role := "client", skills := [] }

/-- The identity directory of the samples. -/
def exUsers : List User := [exClient, exPlumber, exElectrician, exOther]

/-- A complete location. -/
def exLocation : LocationBody :=
  { address := some "1 Main St", city := some "Pune", state := some "MH", zipCode := some "411001" }

/-- A plumbing request without urgency. -/
def exBody : CreateBody :=
  { title := some "Leaking tap", description := some "Kitchen tap drips", category := some "plumbing",
    location := some exLocation, urgency := none, budget := none, scheduledDate := none }

/-- The same request with blanks around the title. -/
def exBodyPadded : CreateBody :=
  { exBody with title := some " Leaking tap " }

/-- The request stored by `exClient` at time 10. -/
def exRequest : Request :=
  { _id := 0, title := "Leaking tap", description := "Kitchen tap drips", category := "plumbing",
    status := "pending", homeowner := 1, professional := none,
    location := { address := "1 Main St", city := "Pune", state := "MH", zipCode := "411001" },
    urgency := "medium", budget := { min := none, max := none }, scheduledDate := none,
    completedDate := none, createdAt := 10, updatedAt := 10 }

/-- The request once sent to `exPlumber` at time 11. -/
def exRequestAssigned : Request :=
  { exRequest with professional := some 2, updatedAt := 11 }

/-- The request once completed at time 12. -/
def exRequestCompleted : Request :=
  { exRequestAssigned with status := "completed", completedDate := some 12, updatedAt := 12 }

/-- The store after the creation. -/
def exCreated : State :=
  run (State.empty exUsers) [.create exClient exBody 10]

/-- The store after creation and assignment. -/
def exAssigned : State :=
  run (State.empty exUsers) [.create exClient exBody 10, .assign exClient 0 (some 2) 11]

/-- The store after creation, assignment and completion. -/
def exCompleted : State :=
  run (State.empty exUsers)
    [.create exClient exBody 10, .assign exClient 0 (some 2) 11,
      .advance exPlumber 0 (some "completed") 12]

/-- Creation, assignment, completion, and a status update back to `pending`. -/
def exReopenOps : List Op :=
  [.create exClient exBody 10, .assign exClient 0 (some 2) 11,
    .advance exPlumber 0 (some "completed") 12, .advance exPlumber 0 (some "pending") 13]


/-! ## Read routes -/

/-- What a list route sends: `res.json({ requests })` or an error. -/
inductive ListResponse where
  | success (requests : List Request)
  | failure (code : Nat) (error : String)
  deriving DecidableEq

/-- The cursor option `.sort({ createdAt: -1 })`: newest first. Documents of
equal date keep the order of the collection. -/
def sortNewestFirst (rs : List Request) : List Request :=
  rs.insertionSort (fun a b => b.createdAt ≤ a.createdAt)

/-- Handler of `GET /api/requests/my-requests`. -/
def listMine (s : State) (caller : User) : ListResponse × State :=
  (.success (sortNewestFirst (s.requests.filter (fun r => decide (r.homeowner = caller._id)))), s)

/-- Handler of `GET /api/requests/incoming`. -/
def listIncoming (s : State) (caller : User) : ListResponse × State :=
  if caller.role ≠ "professional" then
    (.failure 403 "Only professionals can access incoming requests", s)
  else
    (.success (sortNewestFirst (s.requests.filter (fun r =>
      decide (r.professional = some caller._id) &&
        ["pending", "accepted", "in_progress"].contains r.status))), s)

/-- Handler of `GET /api/requests/:id`. The query populates `homeowner` and
`professional`; a reference that names no user is populated with `null`, so
`request.homeowner._id` throws on it and `request.professional && ...` is falsy. -/
def getRequest (s : State) (caller : User) (requestId : Nat) : Response × State :=
  match Request.findById s requestId with
  | none => (.failure 404 "Request not found", s)
  | some request =>
    match User.findById s request.homeowner with
    | none => (internalError, s)
    | some homeowner =>
      let isHomeowner := decide (homeowner._id = caller._id)
      let isProfessional :=
        match request.professional.bind (User.findById s) with
        | none => false
        | some professional => decide (professional._id = caller._id)
      if !isHomeowner && !isProfessional then
        (.failure 403 "Not authorized to view this request", s)
      else (.success 200 request, s)

/-- Every actor reference of a stored request names a stored user. -/
def State.refsResolve (s : State) : Bool :=
  s.requests.all (fun r =>
    (User.findById s r.homeowner).isSome &&
      match r.professional with
      | none => true
      | some pid => (User.findById s pid).isSome)

/-! ## Conditions on a creation body -/

/-- JavaScript `!x` on an optional string: the field is absent or empty. -/
def falsy : Option String → Bool
  | some x => decide (x = "")
  | none => true

/-- The body is one the route refuses: `title`, `description`, `category` or
`location` is missing or empty, the category is outside the list, or a field of
the location is missing or empty. -/
def CreateBody.rejected (body : CreateBody) : Bool :=
  falsy body.title || falsy body.description || falsy body.category ||
    !validCategories.contains (body.category.getD "") ||
    match body.location with
    | none => true
    | some location =>
      falsy location.address || falsy location.city || falsy location.state ||
        falsy location.zipCode

/-- The string has a character that `trim` keeps. -/
def notBlank (x : Option String) : Bool :=
  match x with
  | some t => decide (jsTrim t ≠ "")
  | none => false

/-! ## More sample data -/

/-- The sample body with a title made of one blank. -/
def exBodyBlankTitle : CreateBody :=
  { exBody with title := some " " }

/-- The sample body with a `scheduledDate` that the `Date` cast rejects. -/
def exBodyBadDate : CreateBody :=
  { exBody with scheduledDate := some .uncastable }

/-- An urgent sample body with a budget and a date. -/
def exBodyScheduled : CreateBody :=
  { exBody with
    urgency := some "high"
    budget := some (.cast { min := some 50, max := some 20 })
    scheduledDate := some (.cast 1700000000000) }

/-- The store after the completed request was moved back to `pending`. -/
def exReopened : State :=
  run (State.empty exUsers) exReopenOps

/-- The request once moved back to `pending` at time 13. -/
def exRequestReopened : Request :=
  { exRequestCompleted with status := "pending", updatedAt := 13 }

/-- The store after creation, assignment, acceptance and start of work. -/
def exInProgress : State :=
  run (State.empty exUsers)
    [.create exClient exBody 10, .assign exClient 0 (some 2) 11,
      .advance exPlumber 0 (some "accepted") 12, .advance exPlumber 0 (some "in_progress") 13]

/-- The request once in progress at time 13. -/
def exRequestInProgress : Request :=
  { exRequestAssigned with status := "in_progress", updatedAt := 13 }

/-- A store with three requests of two homeowners, the second one assigned. -/
def exThree : State :=
  run (State.empty exUsers)
    [.create exClient exBody 10, .create exOther exBody 11, .create exClient exBody 12,
      .assign exOther 1 (some 2) 13]

/-! ## User routes -/

/-- The projection `.select('-passwordHash')` of a user document, also the
fields that `PUT /me` answers with. -/
structure UserView where
  _id : Nat
  name : String
  email : String
  role : String
  skills : List String
  deriving DecidableEq

/-- Drop the password hash. -/
def User.select (u : User) : UserView :=
  { _id := u._id, name := u.name, email := u.email, role := u.role, skills := u.skills }

/-- What `GET /api/users/professionals/:category` sends: the list, or an error
whose body may carry a list. -/
inductive ProfessionalsResponse where
  | success (professionals : List UserView)
  | failure (code : Nat) (error : String) (professionals : Option (List UserView))
  deriving DecidableEq

/-- Handler of `GET /api/users/professionals/:category`. The query
`{ role: 'professional', skills: category }` matches the users whose `skills`
array contains the category. -/
def professionalsByCategory (s : State) (category : String) : ProfessionalsResponse × State :=
  if !validCategories.contains category then
    (.failure 400 "Invalid category" none, s)
  else
    let professionals :=
      (s.users.filter (fun u =>
        decide (u.role = "professional") && u.skills.contains category)).map User.select
    if professionals.length = 0 then
      (.failure 404 "No professionals found for this category" (some []), s)
    else (.success professionals, s)

/-- The `validator` of the `skills` path of `UserSchema`; `role` is `this.role`
and the constant `ALLOWED_SKILLS` of `constants/skills` is an argument. The
value of an array path is always an array. -/
def skillsValidator (ALLOWED_SKILLS : List String) (role : String) (value : List String) : Bool :=
  if role ≠ "professional" then decide (value.length = 0)
  else if value.length = 0 then false
  else value.all (fun x => ALLOWED_SKILLS.contains x)

/-- The `enum` of `role`. -/
def validRoles : List String := ["client", "professional", "admin"]

/-- The validators of `UserSchema`, as run by `save`. -/
def User.validate (ALLOWED_SKILLS : List String) (u : User) : Bool :=
  decide (u.name ≠ "") && decide (u.email ≠ "") && decide (u.passwordHash ≠ "") &&
    decide (u.role ∈ validRoles) && skillsValidator ALLOWED_SKILLS u.role u.skills

/-- Overwrite the stored user that has the id of `doc`. -/
def updateUser : List User → User → List User
  | [], _ => []
  | x :: xs, doc => if x._id = doc._id then doc :: xs else x :: updateUser xs doc

/-- The call `user.save()`; `none` stands for the thrown validation error. -/
def User.save (ALLOWED_SKILLS : List String) (s : State) (doc : User) : Option (User × State) :=
  if doc.validate ALLOWED_SKILLS then some (doc, { s with users := updateUser s.users doc })
  else none

/-- The expression `[...new Set(skills)]`: the first occurrence of each skill,
in order. -/
def uniqueSkills : List String → List String
  | [] => []
  | x :: xs => x :: (uniqueSkills xs).filter (fun y => decide (y ≠ x))

/-- The body of `PUT /api/professionals/me`; `skills` is `none` when the field
is not an array. -/
structure ProfileBody where
  name : Option String
  role : Option String
  skills : Option (List String)
  deriving DecidableEq

/-- What `PUT /me` sends: the updated user, or `{ message }`. -/
inductive UserResponse where
  | success (user : UserView)
  | failure (code : Nat) (message : String)
  deriving DecidableEq

/-- The assignment `user.name = name.trim()`, made when the name has a
character that `trim` keeps. -/
def withName (user : User) : Option String → User
  | some name => if (jsTrim name).length > 0 then { user with name := jsTrim name } else user
  | none => user

/-- The assignment `user.role = role`, made when the role is in the list. -/
def withRole (user : User) : Option String → User
  | some role => if validRoles.contains role then { user with role := role } else user
  | none => user

/-- Handler of `PUT /api/professionals/me`. The route relies on a middleware to
set `req.user`, here the argument `reqUser`. -/
def updateMe (ALLOWED_SKILLS : List String) (s : State) (reqUser : Option User)
    (body : ProfileBody) : UserResponse × State :=
  match reqUser with
  | none => (.failure 401 "Unauthorized", s)
  | some reqUser =>
    match User.findById s reqUser._id with
    | none => (.failure 404 "User not found", s)
    | some user =>
      let user := withRole (withName user body.name) body.role
      if user.role = "professional" then
        match body.skills with
        | none => (.failure 400 "Professionals must select at least one skill.", s)
        | some skills =>
          if skills.length = 0 then
            (.failure 400 "Professionals must select at least one skill.", s)
          else
            let invalid := skills.filter (fun x => !ALLOWED_SKILLS.contains x)
            if invalid.length > 0 then
              (.failure 400 ("Invalid skills: " ++ ", ".intercalate invalid ++ "."), s)
            else
              match User.save ALLOWED_SKILLS s { user with skills := uniqueSkills skills } with
              | some (saved, s1) => (.success saved.select, s1)
              | none => (.failure 500 "Server error.", s)
      else
        match User.save ALLOWED_SKILLS s { user with skills := [] } with
        | some (saved, s1) => (.success saved.select, s1)
        | none => (.failure 500 "Server error.", s)

/-! ## More auxiliary definitions for the statements -/

/-- The call is a status update of request `id` to `completed`. -/
def Op.completes (id : Nat) : Op → Bool
  | .advance _ requestId status _ => decide (requestId = id) && decide (status = some "completed")
  | _ => false

/-- The user without its skills. -/
def User.eraseSkills (u : User) : User :=
  { u with skills := [] }

/-- A `PUT /me` body asks for skills that a professional may not have: none,
an empty array, or an array with a skill outside the list. -/
def ProfileBody.badSkills (ALLOWED_SKILLS : List String) (body : ProfileBody) : Bool :=
  match body.skills with
  | none => true
  | some skills => decide (skills = []) || skills.any (fun x => !ALLOWED_SKILLS.contains x)

/-- The two documents agree on `_id`, `title`, `description`, `category`,
`homeowner`, `location`, `urgency`, `budget`, `scheduledDate` and `createdAt`. -/
def Request.sameFixedFields (a b : Request) : Prop :=
  a._id = b._id ∧ a.title = b.title ∧ a.description = b.description ∧
    a.category = b.category ∧ a.homeowner = b.homeowner ∧ a.location = b.location ∧
    a.urgency = b.urgency ∧ a.budget = b.budget ∧ a.scheduledDate = b.scheduledDate ∧
    a.createdAt = b.createdAt

/-! ## Sample requests for the frame -/

/-- The second request of `exThree`, accepted by `exPlumber` at time 14. -/
def exSecondAccepted : Request :=
  { exRequest with
    _id := 1
    homeowner := 4
    professional := some 2
    status := "accepted"
    createdAt := 11
    updatedAt := 14 }

/-- The third request of `exThree`, sent to `exPlumber` at time 14. -/
def exThirdAssigned : Request :=
  { exRequest with
    _id := 2
    professional := some 2
    createdAt := 12
    updatedAt := 14 }

/-! ## Sample data for the user routes -/

/-- The directory after the plumber lost the plumbing skill. -/
def exUsersLost : List User :=
  [exClient, { exPlumber with skills := ["electrical"] }, exElectrician, exOther]

/-- The client `exOther` becomes a painter, naming the skill twice. -/
def exProfileBody : ProfileBody :=
  { name := some " Dana P ", role := some "professional", skills := some ["painting", "painting"] }

/-- The user `exOther` after that update. -/
def exPainter : User :=
  { exOther with name := "Dana P", role := "professional", skills := ["painting"] }

/-- A body that makes a professional with a skill outside the list. -/
def exProfileBodyBad : ProfileBody :=
  { name := none, role := some "professional", skills := some ["painting", "juggling"] }

/-! ## Ids as the routes receive them -/

/-- The string a route receives where an id is expected (`req.params.id`,
`req.body.professionalId`): a well-formed ObjectId, read as the id it denotes,
or a string that is no ObjectId. -/
inductive IdParam where
  | objectId (id : Nat)
  | malformed
  deriving DecidableEq

/-- Handler of `GET /api/requests/:id` on the received id. The first statement
is `Request.findById(req.params.id)`, whose cast of a malformed id throws a
`CastError` that the `catch` block answers. -/
def getRequestOf (s : State) (caller : User) (requestId : IdParam) : Response × State :=
  match requestId with
  | .malformed => (internalError, s)
  | .objectId id => getRequest s caller id

/-- Handler of `PUT /api/requests/:id/status` on the received id. The two
checks of `status` come before `Request.findById`, which throws on a malformed
id. -/
def advanceStatusOf (s : State) (caller : User) (requestId : IdParam)
    (status : Option String) (now : Nat) : Response × State :=
  match requestId with
  | .objectId id => advanceStatus s caller id status now
  | .malformed =>
    match status with
    | none => (.failure 400 "Status is required", s)
    | some status =>
      if status = "" then
        (.failure 400 "Status is required", s)
      else if !validStatuses.contains status then
        (.failure 400 "Invalid status", s)
      else (internalError, s)

/-- Handler of `POST /api/requests/:id/send` on the received ids. The check of
`professionalId` comes first, then `Request.findById` throws on a malformed
request id; `User.findById` is reached after the homeowner check and throws on
a malformed professional id. -/
def assignProfessionalOf (s : State) (caller : User) (requestId : IdParam)
    (professionalId : Option IdParam) (now : Nat) : Response × State :=
  match professionalId with
  | none => (.failure 400 "Professional ID is required", s)
  | some professionalId =>
    match requestId with
    | .malformed => (internalError, s)
    | .objectId id =>
      match Request.findById s id with
      | none => (.failure 404 "Request not found", s)
      | some request =>
        if request.homeowner ≠ caller._id then
          (.failure 403 "Not authorized to modify this request", s)
        else
          match professionalId with
          | .malformed => (internalError, s)
          | .objectId pid => assignProfessional s caller id (some pid) now

/-! ## The answer after `populate` -/

/-- A request as `res.json({ request })` sends it after
`request.populate(['homeowner', 'professional'], '-passwordHash')`: each
reference is replaced by the user it names, without password hash, or by
`null` when it names no user. -/
structure PopulatedRequest where
  request : Request
  homeowner : Option UserView
  professional : Option UserView
  deriving DecidableEq

/-- The call `request.populate(['homeowner', 'professional'], '-passwordHash')`. -/
def populate (s : State) (request : Request) : PopulatedRequest :=
  { request := request
    homeowner := (User.findById s request.homeowner).map User.select
    professional := (request.professional.bind (User.findById s)).map User.select }

/-- What `PUT /:id/status` sends, with the populated request. -/
inductive Answer where
  | success (code : Nat) (request : PopulatedRequest)
  | failure (code : Nat) (error : String)
  deriving DecidableEq

/-- The answer of `PUT /api/requests/:id/status` as sent: the saved request is
populated from the directory before `res.json`. -/
def advanceStatusAnswer (s : State) (caller : User) (requestId : Nat)
    (status : Option String) (now : Nat) : Answer :=
  match advanceStatus s caller requestId status now with
  | (.success code request, s1) => .success code (populate s1 request)
  | (.failure code error, _) => .failure code error

/-- The view without its skills. -/
def UserView.eraseSkills (u : UserView) : UserView :=
  { u with skills := [] }

/-- The answer without the skills of the populated users. -/
def Answer.eraseSkills : Answer → Answer
  | .success code p =>
    .success code
      { p with
        homeowner := p.homeowner.map UserView.eraseSkills
        professional := p.professional.map UserView.eraseSkills }
  | .failure code error => .failure code error

/-- The skills of the populated professional of an answer. -/
def Answer.professionalSkills : Answer → Option (List String)
  | .success _ p => p.professional.map (fun u => u.skills)
  | .failure _ _ => none

/-- A store whose directory holds the plumber only: the request of `exClient`,
assigned to the plumber, names a homeowner that is not stored. -/
def exOrphan : State :=
  run (State.empty [exPlumber])
    [.create exClient exBody 10, .assign exClient 0 (some 2) 11]

/-! ## The store as a list -/

theorem mem_updateOne {rs : List Request} {doc r : Request} (h : r ∈ updateOne rs doc) :
    r ∈ rs ∨ r = doc := by
  induction rs with
  | nil => simp [updateOne] at h
  | cons x xs ih =>
    simp only [updateOne] at h
    split at h
    · rcases List.mem_cons.1 h with h | h
      · exact Or.inr h
      · exact Or.inl (List.mem_cons_of_mem _ h)
    · rcases List.mem_cons.1 h with h | h
      · exact Or.inl (h ▸ List.mem_cons_self _ _)
      · rcases ih h with h | h
        · exact Or.inl (List.mem_cons_of_mem _ h)
        · exact Or.inr h

theorem find_updateOne (rs : List Request) (doc : Request) (id : Nat) :
    (updateOne rs doc).find? (fun r => decide (r._id = id)) =
      if id = doc._id then (rs.find? (fun r => decide (r._id = id))).map (fun _ => doc)
      else rs.find? (fun r => decide (r._id = id)) := by
  induction rs with
  | nil => simp [updateOne]
  | cons x xs ih =>
    simp only [updateOne]
    by_cases hx : x._id = doc._id
    · by_cases hid : id = doc._id
      · simp [hx, hid]
      · have : ¬ x._id = id := fun h => hid (h ▸ hx)
        have h2 : ¬ doc._id = id := fun h => hid h.symm
        simp [hx, hid, List.find?_cons, h2]
    · by_cases hxi : x._id = id
      · have : ¬ id = doc._id := fun h => hx (hxi.trans h)
        simp [hx, hxi, this, List.find?_cons]
      · simp [hx, hxi, List.find?_cons, ih]

theorem find_some_id {rs : List Request} {id : Nat} {r : Request}
    (h : rs.find? (fun r => decide (r._id = id)) = some r) : r._id = id ∧ r ∈ rs := by
  have h1 := List.find?_some h
  exact ⟨by simpa using h1, List.mem_of_find?_eq_some h⟩

theorem findById_id {s : State} {id : Nat} {r : Request}
    (h : Request.findById s id = some r) : r._id = id ∧ r ∈ s.requests :=
  find_some_id h

/-! ## `save` -/

theorem validate_updatedAt (doc : Request) (t : Nat) :
    Request.validate { doc with updatedAt := t } = doc.validate := rfl

theorem save_eq_some {s s1 : State} {orig doc saved : Request} {now : Nat}
    (h : Request.save s orig doc now = some (saved, s1)) :
    doc.validate = true ∧ saved = { doc with updatedAt := saved.updatedAt } ∧
      s1 = { s with requests := updateOne s.requests saved } := by
  unfold Request.save at h
  split at h
  · rename_i hv
    simp only [Option.some.injEq, Prod.mk.injEq] at h
    obtain ⟨h1, h2⟩ := h
    refine ⟨hv, ?_, ?_⟩
    · rw [← h1]; split <;> rfl
    · rw [← h2, ← h1]
  · exact absurd h (by simp)

theorem save_isSome (s : State) (orig : Request) {doc : Request} (now : Nat)
    (hv : doc.validate = true) :
    ∃ saved s1, Request.save s orig doc now = some (saved, s1) := by
  unfold Request.save
  simp [hv]

theorem saveNew_eq_some {s s1 : State} {doc saved : Request} {now : Nat}
    (h : Request.saveNew s doc now = some (saved, s1)) :
    doc.validate = true ∧
      saved = { doc with _id := s.nextId, createdAt := now, updatedAt := now } ∧
      s1 = { s with requests := s.requests ++ [saved], nextId := s.nextId + 1 } := by
  unfold Request.saveNew at h
  split at h
  · rename_i hv
    simp only [Option.some.injEq, Prod.mk.injEq] at h
    obtain ⟨h1, h2⟩ := h
    exact ⟨hv, h1.symm, by rw [← h2, ← h1]⟩
  · exact absurd h (by simp)


/-! ## What each handler does -/

/-- Either `advanceStatus` fails and writes nothing, or the target is in the
list, the caller is the assigned professional and the advanced document is saved. -/
theorem advanceStatus_cases (s : State) (caller : User) (id : Nat) (status : Option String)
    (now : Nat) :
    ((advanceStatus s caller id status now).1.isFailure = true ∧
        (advanceStatus s caller id status now).2 = s) ∨
    ∃ target request saved, status = some target ∧ target ∈ validStatuses ∧
      Request.findById s id = some request ∧ request.professional = some caller._id ∧
      Request.save s request (advancedDoc request target now) now =
        some (saved, (advanceStatus s caller id status now).2) ∧
      (advanceStatus s caller id status now).1 = .success 200 saved := by
  unfold advanceStatus
  split
  · exact Or.inl ⟨rfl, rfl⟩
  · rename_i target
    split
    · exact Or.inl ⟨rfl, rfl⟩
    · split
      · exact Or.inl ⟨rfl, rfl⟩
      · rename_i hvalid
        split
        · exact Or.inl ⟨rfl, rfl⟩
        · rename_i request hfind
          split
          · exact Or.inl ⟨rfl, rfl⟩
          · rename_i professional hprof
            split
            · exact Or.inl ⟨rfl, rfl⟩
            · rename_i hcaller
              have hvalid1 : target ∈ validStatuses := by simpa using hvalid
              have hprof1 : request.professional = some caller._id := by
                rw [hprof]; simpa using hcaller
              have hdoc : (if target = "completed" then
                    { request with status := target, completedDate := some now }
                  else { request with status := target }) = advancedDoc request target now := rfl
              simp only [hdoc]
              split
              · rename_i saved s1 hsave
                exact Or.inr ⟨target, request, saved, rfl, hvalid1, hfind, hprof1, hsave, rfl⟩
              · exact Or.inl ⟨rfl, rfl⟩

/-- Either `assignProfessional` fails and writes nothing, or every check passed
and the request is saved with the professional and status `pending`. -/
theorem assignProfessional_cases (s : State) (caller : User) (id : Nat)
    (professionalId : Option Nat) (now : Nat) :
    ((assignProfessional s caller id professionalId now).1.isFailure = true ∧
        (assignProfessional s caller id professionalId now).2 = s) ∨
    ∃ pid request professional saved, professionalId = some pid ∧
      Request.findById s id = some request ∧ request.homeowner = caller._id ∧
      User.findById s pid = some professional ∧ professional.role = "professional" ∧
      request.category ∈ professional.skills ∧
      Request.save s request { request with professional := some pid, status := "pending" } now =
        some (saved, (assignProfessional s caller id professionalId now).2) ∧
      (assignProfessional s caller id professionalId now).1 = .success 200 saved := by
  unfold assignProfessional
  split
  · exact Or.inl ⟨rfl, rfl⟩
  · rename_i pid
    split
    · exact Or.inl ⟨rfl, rfl⟩
    · rename_i request hfind
      split
      · exact Or.inl ⟨rfl, rfl⟩
      · rename_i howner
        split
        · exact Or.inl ⟨rfl, rfl⟩
        · rename_i professional hpro
          split
          · exact Or.inl ⟨rfl, rfl⟩
          · rename_i hrole
            split
            · exact Or.inl ⟨rfl, rfl⟩
            · rename_i hskill
              split
              · rename_i saved s1 hsave
                refine Or.inr ⟨pid, request, professional, saved, rfl, hfind, ?_, hpro, ?_, ?_,
                  hsave, rfl⟩
                · simpa using howner
                · simpa using hrole
                · simpa using hskill
              · exact Or.inl ⟨rfl, rfl⟩

/-- Either `createRequest` fails and writes nothing, or every required field is
present and non-empty and the new document is saved. -/
theorem createRequest_cases (s : State) (caller : User) (body : CreateBody) (now : Nat) :
    ((createRequest s caller body now).1.isFailure = true ∧
        (createRequest s caller body now).2 = s) ∨
    ∃ title description category address city state zipCode saved,
      body.title = some title ∧ body.description = some description ∧
      body.category = some category ∧
      body.location = some ⟨some address, some city, some state, some zipCode⟩ ∧
      title ≠ "" ∧ description ≠ "" ∧ category ∈ validCategories ∧
      address ≠ "" ∧ city ≠ "" ∧ state ≠ "" ∧ zipCode ≠ "" ∧
      Request.saveNew s
        (createdDoc s caller body title description category ⟨address, city, state, zipCode⟩ now)
        now = some (saved, (createRequest s caller body now).2) ∧
      (createRequest s caller body now).1 = .success 201 saved := by
  unfold createRequest
  split
  · rename_i title description category location htitle hdescription hcategory hlocation
    split
    · exact Or.inl ⟨rfl, rfl⟩
    · rename_i hempty
      split
      · exact Or.inl ⟨rfl, rfl⟩
      · rename_i hcat
        split
        · rename_i address city state zipCode haddress hcity hstate hzip
          split
          · exact Or.inl ⟨rfl, rfl⟩
          · rename_i hloc
            split
            · rename_i budget scheduledDate hbudget hdate
              dsimp only
              split
              · rename_i saved s1 hsave
                simp only [not_or] at hempty hloc
                have hdoc : createdDoc s caller body title description category
                    ⟨address, city, state, zipCode⟩ now =
                    { _id := s.nextId, title := jsTrim title, description := jsTrim description,
                      category := category, status := "pending", homeowner := caller._id,
                      professional := none,
                      location :=
                        { address := address, city := city, state := state, zipCode := zipCode },
                      urgency := urgencyOrDefault body.urgency, budget := budget,
                      scheduledDate := scheduledDate, completedDate := none, createdAt := now,
                      updatedAt := now } := by
                  unfold createdDoc
                  rw [hbudget, hdate]
                  rfl
                refine Or.inr ⟨title, description, category, address, city, state, zipCode,
                  saved, htitle, hdescription, hcategory, ?_, hempty.1, hempty.2.1, ?_, hloc.1,
                  hloc.2.1, hloc.2.2.1, hloc.2.2.2, by rw [hdoc]; exact hsave, rfl⟩
                · rw [hlocation]
                  cases location
                  simp_all
                · simpa using hcat
              · exact Or.inl ⟨rfl, rfl⟩
            · exact Or.inl ⟨rfl, rfl⟩
        · exact Or.inl ⟨rfl, rfl⟩
  · exact Or.inl ⟨rfl, rfl⟩


/-! ## Invariants of the reachable stores -/

/-- The single write of one call: nothing, the insertion of a new `pending`
document, or the overwrite of a stored document. -/
theorem step_cases (s : State) (op : Op) :
    (step s op).2 = s ∨
    (∃ doc : Request, doc.validate = true ∧ doc._id = s.nextId ∧ doc.status = "pending" ∧
      doc.completedDate = none ∧
      (step s op).2 = { s with requests := s.requests ++ [doc], nextId := s.nextId + 1 }) ∨
    (∃ orig doc : Request, Request.findById s doc._id = some orig ∧
      doc.homeowner = orig.homeowner ∧ doc.validate = true ∧
      (doc.status = "completed" → doc.completedDate.isSome = true) ∧
      (step s op).2 = { s with requests := updateOne s.requests doc }) := by
  cases op with
  | create caller body now =>
    rcases createRequest_cases s caller body now with h | h
    · exact Or.inl h.2
    · obtain ⟨title, description, category, address, city, state, zipCode, saved, -, -, -, -, -,
        -, -, -, -, -, -, hsave, -⟩ := h
      obtain ⟨hv, hsaved, hs1⟩ := saveNew_eq_some hsave
      refine Or.inr (Or.inl ⟨saved, ?_, ?_, ?_, ?_, hs1⟩)
      · rw [hsaved]; exact hv
      · rw [hsaved]
      · rw [hsaved]; rfl
      · rw [hsaved]; rfl
  | assign caller id professionalId now =>
    rcases assignProfessional_cases s caller id professionalId now with h | h
    · exact Or.inl h.2
    · obtain ⟨pid, request, professional, saved, -, hfind, -, -, -, -, hsave, -⟩ := h
      obtain ⟨hv, hsaved, hs1⟩ := save_eq_some hsave
      have hid : saved._id = id := by rw [hsaved]; exact (findById_id hfind).1
      refine Or.inr (Or.inr ⟨request, saved, ?_, ?_, ?_, ?_, hs1⟩)
      · rw [hid]; exact hfind
      · rw [hsaved]
      · rw [hsaved]; exact hv
      · intro hc
        have hst : saved.status = "pending" := by rw [hsaved]
        rw [hst] at hc
        exact absurd hc (by decide)
  | advance caller id status now =>
    rcases advanceStatus_cases s caller id status now with h | h
    · exact Or.inl h.2
    · obtain ⟨target, request, saved, -, -, hfind, -, hsave, -⟩ := h
      obtain ⟨hv, hsaved, hs1⟩ := save_eq_some hsave
      have hid : saved._id = id := by
        rw [hsaved]; unfold advancedDoc; split <;> exact (findById_id hfind).1
      refine Or.inr (Or.inr ⟨request, saved, ?_, ?_, ?_, ?_, hs1⟩)
      · rw [hid]; exact hfind
      · rw [hsaved]; unfold advancedDoc; split <;> rfl
      · rw [hsaved]; exact hv
      · intro hc
        have hst : saved.status = target := by
          rw [hsaved]; unfold advancedDoc; split <;> rfl
        have htarget : target = "completed" := hst.symm.trans hc
        rw [hsaved]
        unfold advancedDoc
        rw [if_pos htarget]
        rfl

theorem inv_empty (users : List User) : (State.empty users).Inv := by
  intro r hr
  simp [State.empty] at hr

theorem step_inv {s : State} (op : Op) (h : s.Inv) : (step s op).2.Inv := by
  rcases step_cases s op with hs | ⟨doc, hv, hid, hst, hcd, hs⟩ | ⟨orig, doc, hfind, -, hv, hcd, hs⟩
  · rw [hs]; exact h
  · rw [hs]
    intro r hr
    rcases List.mem_append.1 hr with hr | hr
    · exact ⟨(h r hr).1, Nat.lt_succ_of_lt (h r hr).2⟩
    · have hrd : r = doc := by simpa using hr
      subst hrd
      refine ⟨⟨hv, ?_⟩, ?_⟩
      · intro hc; rw [hst] at hc; exact absurd hc (by decide)
      · show r._id < s.nextId + 1
        omega
  · rw [hs]
    intro r hr
    rcases mem_updateOne hr with hr | hr
    · exact h r hr
    · subst hr
      refine ⟨⟨hv, hcd⟩, ?_⟩
      have ho := findById_id hfind
      have := (h orig ho.2).2
      show r._id < s.nextId
      omega

theorem run_inv {s : State} (ops : List Op) (h : s.Inv) : (run s ops).Inv := by
  induction ops generalizing s with
  | nil => exact h
  | cons op ops ih => exact ih (step_inv op h)

theorem reachable_inv {s : State} (h : Reachable s) : s.Inv := by
  obtain ⟨users, ops, rfl⟩ := h
  exact run_inv ops (inv_empty users)

theorem validate_status {r : Request} (h : r.validate = true) : r.status ∈ validStatuses := by
  unfold Request.validate at h
  simp only [Bool.and_eq_true, decide_eq_true_eq] at h
  exact h.1.1.1.1.1.2

/-- A stored document stays stored, with the same homeowner, across one call. -/
theorem step_findById_homeowner {s : State} (op : Op) {id : Nat} {r : Request}
    (h : Request.findById s id = some r) :
    ∃ r1, Request.findById (step s op).2 id = some r1 ∧ r1.homeowner = r.homeowner := by
  rcases step_cases s op with hs | ⟨doc, -, -, -, -, hs⟩ | ⟨orig, doc, hfind, hhome, -, -, hs⟩
  · rw [hs]; exact ⟨r, h, rfl⟩
  · rw [hs]
    refine ⟨r, ?_, rfl⟩
    unfold Request.findById at h ⊢
    rw [List.find?_append, h]
    rfl
  · rw [hs]
    unfold Request.findById at h hfind ⊢
    simp only [find_updateOne]
    by_cases hid : id = doc._id
    · rw [← hid, h] at hfind
      refine ⟨doc, by rw [if_pos hid, h]; rfl, ?_⟩
      rw [hhome]
      exact congrArg Request.homeowner (Option.some.inj hfind).symm
    · exact ⟨r, by simp [hid, h], rfl⟩

theorem run_findById_homeowner {s : State} (ops : List Op) {id : Nat} {r : Request}
    (h : Request.findById s id = some r) :
    ∃ r1, Request.findById (run s ops) id = some r1 ∧ r1.homeowner = r.homeowner := by
  induction ops generalizing s r with
  | nil => exact ⟨r, h, rfl⟩
  | cons op ops ih =>
    obtain ⟨r1, h1, hh1⟩ := step_findById_homeowner op h
    obtain ⟨r2, h2, hh2⟩ := ih h1
    exact ⟨r2, h2, hh2.trans hh1⟩

/-- A document is found under an id that no earlier document carries. -/
theorem find_append_fresh {rs : List Request} {doc : Request}
    (h : ∀ r ∈ rs, r._id ≠ doc._id) :
    (rs ++ [doc]).find? (fun r => decide (r._id = doc._id)) = some doc := by
  induction rs with
  | nil => simp
  | cons x xs ih =>
    have hx : ¬ x._id = doc._id := h x (List.mem_cons_self _ _)
    simp only [List.cons_append, List.find?_cons, hx, decide_False]
    exact ih (fun r hr => h r (List.mem_cons_of_mem _ hr))


/-! ## Status updates -/

/-- A target outside the status list is refused before the store is read. -/
theorem advanceStatus_unlisted (s : State) (caller : User) (id : Nat) (status : Option String)
    (now : Nat) (h : ∀ t, status = some t → t ∉ validStatuses) :
    (advanceStatus s caller id status now).1.kind = some .ValidationError ∧
      (advanceStatus s caller id status now).2 = s := by
  unfold advanceStatus
  split
  · exact ⟨rfl, rfl⟩
  · rename_i target
    split
    · exact ⟨rfl, rfl⟩
    · have hn : target ∉ validStatuses := h target rfl
      have hc : (!validStatuses.contains target) = true := by simpa using hn
      rw [if_pos hc]
      exact ⟨rfl, rfl⟩

/-- Past its checks, `advanceStatus` is the `save` of the advanced document. -/
theorem advanceStatus_eq_save {s : State} {caller : User} {id : Nat} {request : Request}
    (target : String) (now : Nat) (hfind : Request.findById s id = some request)
    (hpro : request.professional = some caller._id) (htarget : target ∈ validStatuses) :
    advanceStatus s caller id (some target) now =
      match Request.save s request (advancedDoc request target now) now with
      | some (saved, s1) => (.success 200 saved, s1)
      | none => (internalError, s) := by
  have hne : target ≠ "" := by
    intro he; rw [he] at htarget; exact absurd htarget (by decide)
  have hc : (!validStatuses.contains target) = false := by simpa using htarget
  unfold advanceStatus advancedDoc
  simp only [hne, hc, hfind, hpro, if_false, ne_eq, not_true_eq_false]
  rfl

/-- A listed target is stored for the assigned professional, whatever the
current status. -/
theorem advanceStatus_listed {s : State} {caller : User} {id : Nat} {request : Request}
    (target : String) (now : Nat) (hfind : Request.findById s id = some request)
    (hpro : request.professional = some caller._id) (hvalid : request.validate = true)
    (htarget : target ∈ validStatuses) :
    ∃ saved, (advanceStatus s caller id (some target) now).1 = .success 200 saved ∧
      saved.status = target ∧
      Request.findById (advanceStatus s caller id (some target) now).2 id = some saved := by
  have hdv : (advancedDoc request target now).validate = true := by
    unfold Request.validate at hvalid ⊢
    simp only [Bool.and_eq_true, decide_eq_true_eq] at hvalid ⊢
    unfold advancedDoc
    split <;> simp_all
  obtain ⟨saved, s1, hsave⟩ := save_isSome s request now hdv
  rw [advanceStatus_eq_save target now hfind hpro htarget, hsave]
  obtain ⟨-, hsaved, hs1⟩ := save_eq_some hsave
  have hid : saved._id = id := by
    rw [hsaved]; unfold advancedDoc; split <;> exact (findById_id hfind).1
  refine ⟨saved, rfl, ?_, ?_⟩
  · rw [hsaved]; unfold advancedDoc; split <;> rfl
  · show Request.findById s1 id = some saved
    rw [hs1]
    unfold Request.findById at hfind ⊢
    simp only [find_updateOne, hid, if_true, hfind]
    rfl

/-- Whoever is not the assigned professional gets a failure and writes nothing. -/
theorem advanceStatus_other_caller {s : State} {caller : User} {id : Nat} {request : Request}
    (status : Option String) (now : Nat) (hfind : Request.findById s id = some request)
    (hpro : request.professional ≠ some caller._id) :
    (advanceStatus s caller id status now).1.isFailure = true ∧
      (advanceStatus s caller id status now).2 = s := by
  rcases advanceStatus_cases s caller id status now with h | h
  · exact h
  · obtain ⟨target1, request1, saved, -, -, hfind1, hpro1, -, -⟩ := h
    obtain rfl : request = request1 := Option.some.inj (hfind.symm.trans hfind1)
    exact absurd hpro1 hpro

/-- C1 (counterexample): the request is `pending` and assigned to `exPlumber`;
`pending → completed` is no edge of the table, yet the update to `completed`
by `exPlumber` succeeds and the stored status becomes `completed`. -/
theorem C1_counterexample :
    (Request.findById exAssigned 0).map (fun r => (r.status, r.professional)) =
        some ("pending", some exPlumber._id) ∧
      specEdge "pending" "completed" = false ∧
      (advanceStatus exAssigned exPlumber 0 (some "completed") 12).1 =
        .success 200 exRequestCompleted ∧
      (advanceStatus exAssigned exPlumber 0 (some "completed") 12).1.kind ≠
        some .IllegalTransition ∧
      (Request.findById (advanceStatus exAssigned exPlumber 0 (some "completed") 12).2 0).map
        (fun r => r.status) = some "completed" := by
  decide

/-- C1 (amended): `advanceStatus` checks the target against the list of the five
statuses, not against a transition table. Called by the assigned professional
on a stored request, it succeeds and stores the target when the target is in
the list, whatever the current status; with a target outside the list it fails
with the 400 validation error and the store is unchanged. -/
theorem C1_advanceStatus_checks_status_list (s : State) (caller : User) (id : Nat)
    (request : Request) (target : String) (now : Nat)
    (hfind : Request.findById s id = some request)
    (hpro : request.professional = some caller._id) (hvalid : request.validate = true) :
    (target ∈ validStatuses →
      ∃ saved, (advanceStatus s caller id (some target) now).1 = .success 200 saved ∧
        saved.status = target ∧
        Request.findById (advanceStatus s caller id (some target) now).2 id = some saved) ∧
    (target ∉ validStatuses →
      (advanceStatus s caller id (some target) now).1.kind = some .ValidationError ∧
        (advanceStatus s caller id (some target) now).2 = s) := by
  refine ⟨fun h => advanceStatus_listed target now hfind hpro hvalid h, fun h => ?_⟩
  exact advanceStatus_unlisted s caller id (some target) now
    (fun t ht => by rw [← Option.some.inj ht]; exact h)

/-- C1 (witness): from `pending`, the target `completed` is stored and the
target `done` is refused. -/
theorem C1_advanceStatus_checks_status_list_witness :
    (∃ saved, (advanceStatus exAssigned exPlumber 0 (some "completed") 12).1 =
        .success 200 saved ∧ saved.status = "completed" ∧
        Request.findById (advanceStatus exAssigned exPlumber 0 (some "completed") 12).2 0 =
          some saved) ∧
    ((advanceStatus exAssigned exPlumber 0 (some "done") 12).1.kind = some .ValidationError ∧
      (advanceStatus exAssigned exPlumber 0 (some "done") 12).2 = exAssigned) :=
  ⟨(C1_advanceStatus_checks_status_list exAssigned exPlumber 0 exRequestAssigned "completed" 12
      (by decide) (by decide) (by decide)).1 (by decide),
    (C1_advanceStatus_checks_status_list exAssigned exPlumber 0 exRequestAssigned "done" 12
      (by decide) (by decide) (by decide)).2 (by decide)⟩

/-- C2 (counterexample): the request is `completed`; the update to `pending` by
its assigned professional succeeds and the stored status is `pending` again. -/
theorem C2_counterexample :
    (Request.findById exCompleted 0).map (fun r => (r.status, r.professional)) =
        some ("completed", some exPlumber._id) ∧
      (advanceStatus exCompleted exPlumber 0 (some "pending") 13).1.isFailure = false ∧
      (advanceStatus exCompleted exPlumber 0 (some "pending") 13).1.kind ≠
        some .IllegalTransition ∧
      (Request.findById (advanceStatus exCompleted exPlumber 0 (some "pending") 13).2 0).map
        (fun r => r.status) = some "pending" := by
  decide

/-- C2 (amended): `completed` and `cancelled` are not terminal for
`advanceStatus`. On a request whose status is `completed` or `cancelled`, a
call by anyone but the assigned professional fails for every target and leaves
the store unchanged, and a call by the assigned professional with a target
among the five statuses succeeds and stores the target. -/
theorem C2_advanceStatus_on_closed_request (s : State) (caller : User) (id : Nat)
    (request : Request) (now : Nat)
    (hfind : Request.findById s id = some request)
    (hclosed : request.status = "completed" ∨ request.status = "cancelled") :
    (request.professional ≠ some caller._id → ∀ status,
      (advanceStatus s caller id status now).1.isFailure = true ∧
        (advanceStatus s caller id status now).2 = s) ∧
    (request.professional = some caller._id → request.validate = true →
      ∀ target, target ∈ validStatuses →
        ∃ saved, (advanceStatus s caller id (some target) now).1 = .success 200 saved ∧
          saved.status = target ∧
          Request.findById (advanceStatus s caller id (some target) now).2 id = some saved) := by
  have _ := hclosed
  exact ⟨fun hpro status => advanceStatus_other_caller status now hfind hpro,
    fun hpro hvalid target htarget => advanceStatus_listed target now hfind hpro hvalid htarget⟩

/-- C2 (witness): on the completed request, `exOther` is refused and
`exPlumber` moves it to `accepted`. -/
theorem C2_advanceStatus_on_closed_request_witness :
    ((advanceStatus exCompleted exOther 0 (some "accepted") 13).1.isFailure = true ∧
      (advanceStatus exCompleted exOther 0 (some "accepted") 13).2 = exCompleted) ∧
    (∃ saved, (advanceStatus exCompleted exPlumber 0 (some "accepted") 13).1 =
        .success 200 saved ∧ saved.status = "accepted" ∧
        Request.findById (advanceStatus exCompleted exPlumber 0 (some "accepted") 13).2 0 =
          some saved) :=
  ⟨(C2_advanceStatus_on_closed_request exCompleted exOther 0 exRequestCompleted 13
      (by decide) (by decide)).1 (by decide) (some "accepted"),
    (C2_advanceStatus_on_closed_request exCompleted exPlumber 0 exRequestCompleted 13
      (by decide) (by decide)).2 (by decide) (by decide) "accepted" (by decide)⟩

/-- C3 (counterexample): after creation, assignment, completion and an update
back to `pending`, the stored request is `pending` and still carries the
`completedDate` of time 12. -/
theorem C3_counterexample :
    (run (State.empty exUsers) exReopenOps).requests.map
      (fun r => (r.status, r.completedDate)) = [("pending", some 12)] := by
  decide

/-- C3 (amended): in every store reachable from an empty one, a request whose
status is `completed` has its `completedDate` set. -/
theorem C3_completed_has_completedDate (s : State) (h : Reachable s) (r : Request)
    (hr : r ∈ s.requests) (hc : r.status = "completed") : r.completedDate.isSome = true :=
  ((reachable_inv h r hr).1).2 hc

/-- C3 (witness): the completed sample request. -/
theorem C3_completed_has_completedDate_witness :
    exRequestCompleted ∈ exCompleted.requests ∧ exRequestCompleted.status = "completed" ∧
      exRequestCompleted.completedDate.isSome = true :=
  ⟨by decide, by decide,
    C3_completed_has_completedDate exCompleted ⟨exUsers, _, rfl⟩ exRequestCompleted
      (by decide) (by decide)⟩


/-! ## Assignment -/

/-- C4: when the target professional's skills do not contain the request's
category, `assignProfessional` called by the homeowner fails with the 400
response of the skill check (`InvalidAssignment`), the store is unchanged and
so the request's `professional` field is what it was. -/
theorem C4_skill_mismatch_is_refused (s : State) (caller : User) (id pid : Nat)
    (request : Request) (professional : User) (now : Nat)
    (hfind : Request.findById s id = some request)
    (howner : request.homeowner = caller._id)
    (hpro : User.findById s pid = some professional)
    (hrole : professional.role = "professional")
    (hskill : request.category ∉ professional.skills) :
    (assignProfessional s caller id (some pid) now).1 =
        .failure 400 "Professional does not have the required skill" ∧
      (assignProfessional s caller id (some pid) now).1.kind = some .InvalidAssignment ∧
      (assignProfessional s caller id (some pid) now).2 = s ∧
      (Request.findById (assignProfessional s caller id (some pid) now).2 id).map
        (fun r => r.professional) = some request.professional := by
  have hres : assignProfessional s caller id (some pid) now =
      (.failure 400 "Professional does not have the required skill", s) := by
    unfold assignProfessional
    simp [hfind, howner, hpro, hrole, hskill]
  rw [hres]
  exact ⟨rfl, rfl, rfl, by rw [hfind]; rfl⟩

/-- C4 (witness): the plumbing request sent to the electrician. -/
theorem C4_skill_mismatch_is_refused_witness :
    (assignProfessional exCreated exClient 0 (some 3) 11).1 =
        .failure 400 "Professional does not have the required skill" ∧
      (assignProfessional exCreated exClient 0 (some 3) 11).1.kind = some .InvalidAssignment ∧
      (assignProfessional exCreated exClient 0 (some 3) 11).2 = exCreated ∧
      (Request.findById (assignProfessional exCreated exClient 0 (some 3) 11).2 0).map
        (fun r => r.professional) = some exRequest.professional :=
  C4_skill_mismatch_is_refused exCreated exClient 0 3 exRequest exElectrician 11
    (by decide) (by decide) (by decide) (by decide) (by decide)

/-- C5: when `assignProfessional` succeeds, the caller is the request's
homeowner, the target actor has role `professional` and has the request's
category among its skills, and the returned request has the target as
professional and status `pending`. -/
theorem C5_assignProfessional_success (s : State) (caller : User) (id : Nat)
    (professionalId : Option Nat) (now code : Nat) (saved : Request)
    (h : (assignProfessional s caller id professionalId now).1 = .success code saved) :
    ∃ pid request professional, professionalId = some pid ∧
      Request.findById s id = some request ∧ request.homeowner = caller._id ∧
      User.findById s pid = some professional ∧ professional.role = "professional" ∧
      request.category ∈ professional.skills ∧
      saved.professional = some pid ∧ saved.status = "pending" := by
  rcases assignProfessional_cases s caller id professionalId now with hc | hc
  · rw [h] at hc
    exact absurd hc.1 (by simp [Response.isFailure])
  · obtain ⟨pid, request, professional, saved1, hpid, hfind, howner, hpro, hrole, hskill, hsave,
      hres⟩ := hc
    rw [h] at hres
    obtain rfl : saved = saved1 := (Response.success.inj hres).2
    obtain ⟨-, hsaved, -⟩ := save_eq_some hsave
    refine ⟨pid, request, professional, hpid, hfind, howner, hpro, hrole, hskill, ?_, ?_⟩
    · rw [hsaved]
    · rw [hsaved]

/-- C5 (witness): the plumbing request sent to the plumber. -/
theorem C5_assignProfessional_success_witness :
    (assignProfessional exCreated exClient 0 (some 2) 11).1 = .success 200 exRequestAssigned ∧
    ∃ pid request professional, some 2 = some pid ∧
      Request.findById exCreated 0 = some request ∧ request.homeowner = exClient._id ∧
      User.findById exCreated pid = some professional ∧ professional.role = "professional" ∧
      request.category ∈ professional.skills ∧
      exRequestAssigned.professional = some pid ∧ exRequestAssigned.status = "pending" :=
  ⟨by decide,
    C5_assignProfessional_success exCreated exClient 0 (some 2) 11 200 exRequestAssigned
      (by decide)⟩

/-- C6: on a stored request, `assignProfessional` by a caller other than the
homeowner fails with 403 (`Forbidden`) for every given professional id, and the
store is unchanged. -/
theorem C6_assign_by_other_is_forbidden (s : State) (caller : User) (id pid : Nat)
    (request : Request) (now : Nat)
    (hfind : Request.findById s id = some request)
    (howner : request.homeowner ≠ caller._id) :
    (assignProfessional s caller id (some pid) now).1 =
        .failure 403 "Not authorized to modify this request" ∧
      (assignProfessional s caller id (some pid) now).1.kind = some .Forbidden ∧
      (assignProfessional s caller id (some pid) now).2 = s := by
  have hres : assignProfessional s caller id (some pid) now =
      (.failure 403 "Not authorized to modify this request", s) := by
    unfold assignProfessional
    simp [hfind, howner]
  rw [hres]
  exact ⟨rfl, rfl, rfl⟩

/-- C6 (witness): `exOther` sends `exClient`'s request to the plumber. -/
theorem C6_assign_by_other_is_forbidden_witness :
    (assignProfessional exCreated exOther 0 (some 2) 11).1 =
        .failure 403 "Not authorized to modify this request" ∧
      (assignProfessional exCreated exOther 0 (some 2) 11).1.kind = some .Forbidden ∧
      (assignProfessional exCreated exOther 0 (some 2) 11).2 = exCreated :=
  C6_assign_by_other_is_forbidden exCreated exOther 0 2 exRequest 11 (by decide) (by decide)

/-! ## Authorization of status updates -/

/-- C7 (failing input): the stored request has no professional; the update to
`accepted` by `exPlumber`, who is not assigned, is answered by the 500 of the
`catch` block and not by 403. The store is unchanged. -/
theorem C7_unassigned_request_answers_500 :
    (Request.findById exCreated 0).map (fun r => r.professional) = some none ∧
      advanceStatus exCreated exPlumber 0 (some "accepted") 11 =
        (.failure 500 "Internal server error", exCreated) ∧
      (advanceStatus exCreated exPlumber 0 (some "accepted") 11).1.kind ≠ some .Forbidden := by
  decide

/-! ## Invariants -/

/-- C8: the request a successful `createRequest` stores in a reachable store is
still stored, with the creating caller as homeowner, after every sequence of
further calls. -/
theorem C8_homeowner_is_invariant (s : State) (hs : Reachable s) (caller : User)
    (body : CreateBody) (now code : Nat) (r : Request)
    (hcreate : (createRequest s caller body now).1 = .success code r) (ops : List Op) :
    r.homeowner = caller._id ∧
    ∃ r1, Request.findById (run (createRequest s caller body now).2 ops) r._id = some r1 ∧
      r1.homeowner = caller._id := by
  rcases createRequest_cases s caller body now with hc | hc
  · rw [hcreate] at hc
    exact absurd hc.1 (by simp [Response.isFailure])
  · obtain ⟨title, description, category, address, city, state, zipCode, saved, -, -, -, -, -,
      -, -, -, -, -, -, hsave, hres⟩ := hc
    rw [hcreate] at hres
    obtain rfl : r = saved := (Response.success.inj hres).2
    obtain ⟨-, hsaved, hs1⟩ := saveNew_eq_some hsave
    have hid : r._id = s.nextId := by rw [hsaved]
    have hhome : r.homeowner = caller._id := by rw [hsaved]; rfl
    have hfresh : ∀ x ∈ s.requests, x._id ≠ r._id := by
      intro x hx
      have := (reachable_inv hs x hx).2
      omega
    have hfind : Request.findById (createRequest s caller body now).2 r._id = some r := by
      rw [hs1]
      exact find_append_fresh hfresh
    obtain ⟨r1, h1, h2⟩ := run_findById_homeowner ops hfind
    exact ⟨hhome, r1, h1, h2.trans hhome⟩

/-- C8 (witness): the sample request after assignment, completion and an
attempt by `exOther`. -/
theorem C8_homeowner_is_invariant_witness :
    exRequest.homeowner = exClient._id ∧
    ∃ r1, Request.findById
        (run (createRequest (State.empty exUsers) exClient exBody 10).2
          [.assign exClient 0 (some 2) 11, .advance exPlumber 0 (some "completed") 12,
            .assign exOther 0 (some 3) 13]) exRequest._id = some r1 ∧
      r1.homeowner = exClient._id :=
  C8_homeowner_is_invariant (State.empty exUsers) ⟨exUsers, [], rfl⟩ exClient exBody 10 201
    exRequest (by decide) _

/-- C9: in every store reachable from an empty one, whatever the inputs of the
calls, the status of every stored request is one of `pending`, `accepted`,
`in_progress`, `completed`, `cancelled`. -/
theorem C9_status_in_enumeration (s : State) (h : Reachable s) (r : Request)
    (hr : r ∈ s.requests) :
    r.status = "pending" ∨ r.status = "accepted" ∨ r.status = "in_progress" ∨
      r.status = "completed" ∨ r.status = "cancelled" := by
  have hv := validate_status (reachable_inv h r hr).1.1
  simpa [validStatuses] using hv

/-- C9 (witness): a store reached through an update with an unknown status. -/
theorem C9_status_in_enumeration_witness :
    exRequestAssigned ∈
        (run (State.empty exUsers)
          [.create exClient exBody 10, .assign exClient 0 (some 2) 11,
            .advance exPlumber 0 (some "done") 12]).requests ∧
      (exRequestAssigned.status = "pending" ∨ exRequestAssigned.status = "accepted" ∨
        exRequestAssigned.status = "in_progress" ∨ exRequestAssigned.status = "completed" ∨
        exRequestAssigned.status = "cancelled") :=
  ⟨by decide,
    C9_status_in_enumeration _ ⟨exUsers, [.create exClient exBody 10,
      .assign exClient 0 (some 2) 11, .advance exPlumber 0 (some "done") 12], rfl⟩
      exRequestAssigned (by decide)⟩

/-! ## Creation -/

/-- C10 (counterexample): the title is given with a blank on each side; the
creation succeeds and the stored and returned title has no blanks. -/
theorem C10_counterexample :
    exBodyPadded.title = some " Leaking tap " ∧
      createRequest (State.empty exUsers) exClient exBodyPadded 10 =
        (.success 201 exRequest, exCreated) ∧
      exRequest.title = "Leaking tap" ∧ exRequest.title ≠ " Leaking tap " := by
  decide

/-- C10 (amended): a successful `createRequest` answers 201 and appends the
returned request to the store; the request has status `pending`, no
professional, no `completedDate`, the caller as homeowner, the given title and
description with the white space at both ends removed, the given category and
location, and the given urgency, or `medium` when the urgency is absent or
empty. -/
theorem C10_createRequest_result (s : State) (caller : User) (body : CreateBody)
    (now code : Nat) (r : Request)
    (h : (createRequest s caller body now).1 = .success code r) :
    code = 201 ∧ (createRequest s caller body now).2.requests = s.requests ++ [r] ∧
      r.status = "pending" ∧ r.professional = none ∧ r.completedDate = none ∧
      r.homeowner = caller._id ∧
      body.title.map jsTrim = some r.title ∧
      body.description.map jsTrim = some r.description ∧
      body.category = some r.category ∧
      body.location = some ⟨some r.location.address, some r.location.city,
        some r.location.state, some r.location.zipCode⟩ ∧
      (∀ u, body.urgency = some u → u ≠ "" → r.urgency = u) ∧
      (body.urgency = none ∨ body.urgency = some "" → r.urgency = "medium") := by
  rcases createRequest_cases s caller body now with hc | hc
  · rw [h] at hc
    exact absurd hc.1 (by simp [Response.isFailure])
  · obtain ⟨title, description, category, address, city, state, zipCode, saved, htitle, hdesc,
      hcat, hloc, -, -, -, -, -, -, -, hsave, hres⟩ := hc
    rw [h] at hres
    obtain ⟨hcode, rfl⟩ : code = 201 ∧ r = saved := Response.success.inj hres
    obtain ⟨-, hsaved, hs1⟩ := saveNew_eq_some hsave
    have hurg : r.urgency = urgencyOrDefault body.urgency := by rw [hsaved]; rfl
    refine ⟨hcode, by rw [hs1], by rw [hsaved]; rfl, by rw [hsaved]; rfl, by rw [hsaved]; rfl,
      by rw [hsaved]; rfl, ?_, ?_, ?_, ?_, ?_, ?_⟩
    · rw [htitle, hsaved]; rfl
    · rw [hdesc, hsaved]; rfl
    · rw [hcat, hsaved]; rfl
    · rw [hloc, hsaved]; rfl
    · intro u hu hne
      rw [hurg, hu]
      simp [urgencyOrDefault, hne]
    · intro hu
      rw [hurg]
      rcases hu with hu | hu <;> rw [hu] <;> rfl

/-- C10 (witness): the padded sample body. -/
theorem C10_createRequest_result_witness :
    (createRequest (State.empty exUsers) exClient exBodyPadded 10).1 = .success 201 exRequest ∧
    ((201 : Nat) = 201 ∧
      (createRequest (State.empty exUsers) exClient exBodyPadded 10).2.requests =
        (State.empty exUsers).requests ++ [exRequest] ∧
      exRequest.status = "pending" ∧ exRequest.professional = none ∧
      exRequest.completedDate = none ∧ exRequest.homeowner = exClient._id ∧
      exBodyPadded.title.map jsTrim = some exRequest.title ∧
      exBodyPadded.description.map jsTrim = some exRequest.description ∧
      exBodyPadded.category = some exRequest.category ∧
      exBodyPadded.location = some ⟨some exRequest.location.address,
        some exRequest.location.city, some exRequest.location.state,
        some exRequest.location.zipCode⟩ ∧
      (∀ u, exBodyPadded.urgency = some u → u ≠ "" → exRequest.urgency = u) ∧
      (exBodyPadded.urgency = none ∨ exBodyPadded.urgency = some "" →
        exRequest.urgency = "medium")) :=
  ⟨by decide,
    C10_createRequest_result (State.empty exUsers) exClient exBodyPadded 10 201 exRequest
      (by decide)⟩

/-! ## Creation: validation and authorization -/

/-- A refused body is answered by a 400 before anything is built. -/
theorem createRequest_rejected (s : State) (caller : User) (body : CreateBody) (now : Nat)
    (h : body.rejected = true) :
    (createRequest s caller body now).1.kind = some .ValidationError ∧
      (createRequest s caller body now).2 = s := by
  unfold createRequest
  split
  · rename_i title description category location htitle hdesc hcat hloc
    split
    · exact ⟨rfl, rfl⟩
    · rename_i hempty
      split
      · exact ⟨rfl, rfl⟩
      · rename_i hcategory
        split
        · rename_i address city state zipCode haddress hcity hstate hzip
          split
          · exact ⟨rfl, rfl⟩
          · rename_i hfields
            exfalso
            simp only [not_or] at hempty hfields
            simp [CreateBody.rejected, falsy, htitle, hdesc, hcat, hloc, haddress, hcity, hstate,
              hzip, hempty, hfields] at h
            simp [h] at hcategory
        · exact ⟨rfl, rfl⟩
  · exact ⟨rfl, rfl⟩

/-- A body that is not refused, whose title and description survive `trim`,
whose urgency is valid or absent and whose budget and date pass their casts, is
stored. -/
theorem createRequest_accepted (s : State) (caller : User) (body : CreateBody) (now : Nat)
    (h : body.rejected = false) (htitle : notBlank body.title = true)
    (hdesc : notBlank body.description = true)
    (hurgency : ∀ u, body.urgency = some u → u ∈ validUrgencies)
    (hbudget : (castBudget body.budget).isSome = true)
    (hdate : (castDate body.scheduledDate).isSome = true) :
    ∃ r, createRequest s caller body now =
      (.success 201 r, { s with requests := s.requests ++ [r], nextId := s.nextId + 1 }) := by
  rcases body with ⟨_ | title, _ | description, _ | category,
    _ | ⟨_ | address, _ | city, _ | state, _ | zipCode⟩, urgency, budget, scheduledDate⟩ <;>
    simp [CreateBody.rejected, falsy] at h
  obtain ⟨⟨⟨⟨ht, hd⟩, hc⟩, hcat⟩, ⟨⟨ha, hci⟩, hst⟩, hz⟩ := h
  simp only [notBlank, decide_eq_true_eq] at htitle hdesc
  obtain ⟨budget1, hb⟩ := Option.isSome_iff_exists.1 hbudget
  obtain ⟨date1, hdt⟩ := Option.isSome_iff_exists.1 hdate
  simp only at hb hdt
  have hu : urgencyOrDefault urgency ∈ validUrgencies := by
    cases urgency with
    | none => decide
    | some u =>
      simp only [urgencyOrDefault]
      split
      · decide
      · exact hurgency u rfl
  have hv : Request.validate
      { _id := s.nextId, title := jsTrim title, description := jsTrim description,
        category := category, status := "pending", homeowner := caller._id,
        professional := none,
        location := { address := address, city := city, state := state, zipCode := zipCode },
        urgency := urgencyOrDefault urgency,
        budget := budget1, scheduledDate := date1,
        completedDate := none, createdAt := now, updatedAt := now } = true := by
    simp [Request.validate, htitle, hdesc, hcat, ha, hci, hst, hz, hu, validStatuses]
  simp [createRequest, ht, hd, hc, hcat, ha, hci, hst, hz, Request.saveNew, hv, hb, hdt]

/-- C11 (counterexample): nothing is missing or empty in the body and the
urgency is omitted, but the title is one blank: the creation does not succeed,
it is answered by the 500 of the `catch` block. So is the creation with a
`scheduledDate` that is no date. -/
theorem C11_counterexample :
    exBodyBlankTitle.title = some " " ∧ exBodyBlankTitle.rejected = false ∧
      exBodyBlankTitle.urgency = none ∧
      createRequest (State.empty exUsers) exClient exBodyBlankTitle 10 =
        (.failure 500 "Internal server error", State.empty exUsers) ∧
      exBodyBadDate.rejected = false ∧ exBodyBadDate.urgency = none ∧
      createRequest (State.empty exUsers) exClient exBodyBadDate 10 =
        (.failure 500 "Internal server error", State.empty exUsers) := by
  decide

/-- C11 (amended): for a body whose text fields are strings, `createRequest`
fails with the 400 validation error and stores nothing when `title`,
`description`, `category` or `location` is missing or empty, when the category
is outside the list, or when a field of the location is missing or empty. When
none of these hold, the title and the description are not made of white space
only, the urgency is valid or omitted, and `budget` and `scheduledDate` are
omitted or values that the schema casts, it succeeds and stores the request. -/
theorem C11_createRequest_validation (s : State) (caller : User) (body : CreateBody)
    (now : Nat) :
    (body.rejected = true →
      (createRequest s caller body now).1.kind = some .ValidationError ∧
        (createRequest s caller body now).2 = s) ∧
    (body.rejected = false → notBlank body.title = true → notBlank body.description = true →
      (∀ u, body.urgency = some u → u ∈ validUrgencies) →
      (castBudget body.budget).isSome = true → (castDate body.scheduledDate).isSome = true →
      ∃ r, (createRequest s caller body now).1 = .success 201 r ∧
        (createRequest s caller body now).2.requests = s.requests ++ [r]) := by
  refine ⟨createRequest_rejected s caller body now, fun h ht hd hu hb hdt => ?_⟩
  obtain ⟨r, hr⟩ := createRequest_accepted s caller body now h ht hd hu hb hdt
  exact ⟨r, by rw [hr], by rw [hr]⟩

/-- C11 (witness): a body without category is refused, an urgent body with a
budget and a date is stored. -/
theorem C11_createRequest_validation_witness :
    ((createRequest exCreated exClient { exBody with category := none } 11).1.kind =
        some .ValidationError ∧
      (createRequest exCreated exClient { exBody with category := none } 11).2 = exCreated) ∧
    (∃ r, (createRequest exCreated exClient exBodyScheduled 11).1 = .success 201 r ∧
      (createRequest exCreated exClient exBodyScheduled 11).2.requests =
        exCreated.requests ++ [r]) :=
  ⟨(C11_createRequest_validation exCreated exClient { exBody with category := none } 11).1
      (by decide),
    (C11_createRequest_validation exCreated exClient exBodyScheduled 11).2
      (by decide) (by decide) (by decide) (by intro u hu; cases hu; decide) (by decide)
      (by decide)⟩

/-- C12 (failing input): `exPlumber`, whose role is `professional`, creates a
request: the answer is 201 and the request is stored with `exPlumber` as
homeowner. -/
theorem C12_professional_creates_request :
    exPlumber.role = "professional" ∧
      createRequest (State.empty exUsers) exPlumber exBody 10 =
        (.success 201 { exRequest with homeowner := exPlumber._id },
          { users := exUsers, requests := [{ exRequest with homeowner := exPlumber._id }],
            nextId := 1 }) := by
  decide

/-! ## Failures write nothing -/

/-- C13: when `assignProfessional` or `advanceStatus` answers with any failure,
the store after the call is the store before the call. -/
theorem C13_no_partial_writes (s : State) (caller : User) (id : Nat)
    (professionalId : Option Nat) (status : Option String) (now : Nat) :
    ((assignProfessional s caller id professionalId now).1.isFailure = true →
      (assignProfessional s caller id professionalId now).2 = s) ∧
    ((advanceStatus s caller id status now).1.isFailure = true →
      (advanceStatus s caller id status now).2 = s) := by
  constructor
  · intro hf
    rcases assignProfessional_cases s caller id professionalId now with h | h
    · exact h.2
    · obtain ⟨_, _, _, saved, -, -, -, -, -, -, -, hres⟩ := h
      rw [hres] at hf
      exact absurd hf (by simp [Response.isFailure])
  · intro hf
    rcases advanceStatus_cases s caller id status now with h | h
    · exact h.2
    · obtain ⟨_, _, saved, -, -, -, -, -, hres⟩ := h
      rw [hres] at hf
      exact absurd hf (by simp [Response.isFailure])

/-- C13 (witness): a forbidden assignment and an update by a stranger. -/
theorem C13_no_partial_writes_witness :
    (assignProfessional exAssigned exOther 0 (some 3) 12).2 = exAssigned ∧
      (advanceStatus exAssigned exOther 0 (some "accepted") 12).2 = exAssigned :=
  ⟨(C13_no_partial_writes exAssigned exOther 0 (some 3) (some "accepted") 12).1 (by decide),
    (C13_no_partial_writes exAssigned exOther 0 (some 3) (some "accepted") 12).2 (by decide)⟩

/-! ## The happy path -/

theorem advancedDoc_validate {request : Request} (target : String) (now : Nat)
    (hvalid : request.validate = true) (htarget : target ∈ validStatuses) :
    (advancedDoc request target now).validate = true := by
  unfold Request.validate at hvalid ⊢
  simp only [Bool.and_eq_true, decide_eq_true_eq] at hvalid ⊢
  unfold advancedDoc
  split <;> simp_all

/-- One accepted status update: what is answered and stored. -/
theorem advanceStatus_step {s : State} {caller : User} {id : Nat} {request : Request}
    (target : String) (now : Nat) (hfind : Request.findById s id = some request)
    (hpro : request.professional = some caller._id) (hvalid : request.validate = true)
    (htarget : target ∈ validStatuses) :
    ∃ saved, (advanceStatus s caller id (some target) now).1 = .success 200 saved ∧
      saved.status = target ∧
      saved.completedDate = (if target = "completed" then some now else request.completedDate) ∧
      saved.professional = request.professional ∧ saved.validate = true ∧
      Request.findById (advanceStatus s caller id (some target) now).2 id = some saved := by
  have hdv := advancedDoc_validate target now hvalid htarget
  obtain ⟨saved, s1, hsave⟩ := save_isSome s request now hdv
  rw [advanceStatus_eq_save target now hfind hpro htarget, hsave]
  obtain ⟨-, hsaved, hs1⟩ := save_eq_some hsave
  have hid : saved._id = id := by
    rw [hsaved]; unfold advancedDoc; split <;> exact (findById_id hfind).1
  refine ⟨saved, rfl, ?_, ?_, ?_, ?_, ?_⟩
  · rw [hsaved]; unfold advancedDoc; split <;> rfl
  · rw [hsaved]; unfold advancedDoc; split <;> rfl
  · rw [hsaved]; unfold advancedDoc; split <;> rfl
  · rw [hsaved]; exact hdv
  · show Request.findById s1 id = some saved
    rw [hs1]
    unfold Request.findById at hfind ⊢
    simp only [find_updateOne, hid, if_true, hfind]
    rfl

/-- C14 (counterexample): the request is `pending` and assigned to `exPlumber`,
but it was completed at time 12 and moved back; after `accepted` it still
carries that `completedDate`. -/
theorem C14_counterexample :
    Request.findById exReopened 0 = some exRequestReopened ∧
      exRequestReopened.status = "pending" ∧
      exRequestReopened.professional = some exPlumber._id ∧
      (advanceStatus exReopened exPlumber 0 (some "accepted") 14).1 =
        .success 200 { exRequestReopened with status := "accepted", updatedAt := 14 } ∧
      ({ exRequestReopened with status := "accepted", updatedAt := 14 } : Request).completedDate =
        some 12 := by
  decide

/-- C14 (amended): for a stored `pending` request assigned to professional `P`
whose `completedDate` is unset, the successive updates by `P` to `accepted`,
`in_progress` and `completed` all succeed and yield these statuses in that
order, with `completedDate` unset after the first two and set after the third. -/
theorem C14_happy_path (s : State) (P : User) (id : Nat) (request : Request) (t1 t2 t3 : Nat)
    (hfind : Request.findById s id = some request) (hvalid : request.validate = true)
    (hstatus : request.status = "pending") (hpro : request.professional = some P._id)
    (hdate : request.completedDate = none) :
    ∃ r1 r2 r3,
      (advanceStatus s P id (some "accepted") t1).1 = .success 200 r1 ∧
      r1.status = "accepted" ∧ r1.completedDate = none ∧
      (advanceStatus (advanceStatus s P id (some "accepted") t1).2 P id
        (some "in_progress") t2).1 = .success 200 r2 ∧
      r2.status = "in_progress" ∧ r2.completedDate = none ∧
      (advanceStatus (advanceStatus (advanceStatus s P id (some "accepted") t1).2 P id
        (some "in_progress") t2).2 P id (some "completed") t3).1 = .success 200 r3 ∧
      r3.status = "completed" ∧ r3.completedDate = some t3 := by
  have _ := hstatus
  obtain ⟨r1, h1, hs1, hd1, hp1, hv1, hf1⟩ :=
    advanceStatus_step "accepted" t1 hfind hpro hvalid (by decide)
  obtain ⟨r2, h2, hs2, hd2, hp2, hv2, hf2⟩ :=
    advanceStatus_step "in_progress" t2 hf1 (hp1.trans hpro) hv1 (by decide)
  obtain ⟨r3, h3, hs3, hd3, -, -, -⟩ :=
    advanceStatus_step "completed" t3 hf2 (hp2.trans (hp1.trans hpro)) hv2 (by decide)
  refine ⟨r1, r2, r3, h1, hs1, ?_, h2, hs2, ?_, h3, hs3, ?_⟩
  · rw [hd1, if_neg (by decide), hdate]
  · rw [hd2, if_neg (by decide), hd1, if_neg (by decide), hdate]
  · rw [hd3, if_pos rfl]

/-- C14 (witness): the sample request after its assignment. -/
theorem C14_happy_path_witness :
    ∃ r1 r2 r3,
      (advanceStatus exAssigned exPlumber 0 (some "accepted") 12).1 = .success 200 r1 ∧
      r1.status = "accepted" ∧ r1.completedDate = none ∧
      (advanceStatus (advanceStatus exAssigned exPlumber 0 (some "accepted") 12).2 exPlumber 0
        (some "in_progress") 13).1 = .success 200 r2 ∧
      r2.status = "in_progress" ∧ r2.completedDate = none ∧
      (advanceStatus (advanceStatus (advanceStatus exAssigned exPlumber 0 (some "accepted") 12).2
        exPlumber 0 (some "in_progress") 13).2 exPlumber 0 (some "completed") 14).1 =
        .success 200 r3 ∧
      r3.status = "completed" ∧ r3.completedDate = some 14 :=
  C14_happy_path exAssigned exPlumber 0 exRequestAssigned 12 13 14 (by decide) (by decide)
    (by decide) (by decide) (by decide)

/-! ## Query views -/

theorem sortNewestFirst_perm (rs : List Request) : List.Perm (sortNewestFirst rs) rs :=
  List.perm_insertionSort _ rs

theorem sortNewestFirst_sorted (rs : List Request) :
    List.Sorted (fun a b : Request => b.createdAt ≤ a.createdAt) (sortNewestFirst rs) := by
  haveI : IsTotal Request (fun a b => b.createdAt ≤ a.createdAt) :=
    ⟨fun a b => Nat.le_total b.createdAt a.createdAt⟩
  haveI : IsTrans Request (fun a b => b.createdAt ≤ a.createdAt) :=
    ⟨fun _ _ _ hab hbc => Nat.le_trans hbc hab⟩
  exact List.sorted_insertionSort _ rs

/-- C15: `listMine` answers with the stored requests whose homeowner is the
caller, each as often as it is stored and no other request, ordered by
`createdAt` descending, and the store is unchanged. -/
theorem C15_listMine (s : State) (caller : User) :
    ∃ rs, (listMine s caller).1 = .success rs ∧
      List.Perm rs (s.requests.filter (fun r => decide (r.homeowner = caller._id))) ∧
      (∀ r, r ∈ rs ↔ r ∈ s.requests ∧ r.homeowner = caller._id) ∧
      List.Sorted (fun a b : Request => b.createdAt ≤ a.createdAt) rs ∧
      (listMine s caller).2 = s := by
  refine ⟨_, rfl, sortNewestFirst_perm _, ?_, sortNewestFirst_sorted _, rfl⟩
  intro r
  rw [(sortNewestFirst_perm _).mem_iff]
  simp [List.mem_filter]

/-- C16: called by a professional, `listIncoming` answers with the stored
requests whose professional is the caller and whose status is `pending`,
`accepted` or `in_progress`, each as often as it is stored and no other request
(so none that is `completed` or `cancelled`), ordered by `createdAt`
descending, and the store is unchanged. -/
theorem C16_listIncoming (s : State) (caller : User) (hrole : caller.role = "professional") :
    ∃ rs, (listIncoming s caller).1 = .success rs ∧
      List.Perm rs (s.requests.filter (fun r => decide (r.professional = some caller._id ∧
        (r.status = "pending" ∨ r.status = "accepted" ∨ r.status = "in_progress")))) ∧
      (∀ r ∈ rs, r.status ≠ "completed" ∧ r.status ≠ "cancelled") ∧
      List.Sorted (fun a b : Request => b.createdAt ≤ a.createdAt) rs ∧
      (listIncoming s caller).2 = s := by
  have hfilter : s.requests.filter (fun r => decide (r.professional = some caller._id) &&
        ["pending", "accepted", "in_progress"].contains r.status) =
      s.requests.filter (fun r => decide (r.professional = some caller._id ∧
        (r.status = "pending" ∨ r.status = "accepted" ∨ r.status = "in_progress"))) := by
    apply List.filter_congr
    intro r _
    simp
  unfold listIncoming
  rw [if_neg (by simpa using hrole), hfilter]
  refine ⟨_, rfl, sortNewestFirst_perm _, ?_, sortNewestFirst_sorted _, rfl⟩
  intro r hr
  rw [(sortNewestFirst_perm _).mem_iff] at hr
  simp only [List.mem_filter, decide_eq_true_eq] at hr
  rcases hr.2.2 with h | h | h <;> rw [h] <;> decide

/-- C16 (witness): the incoming requests of `exPlumber` among three requests. -/
theorem C16_listIncoming_witness :
    ∃ rs, (listIncoming exThree exPlumber).1 = .success rs ∧
      List.Perm rs (exThree.requests.filter (fun r => decide (r.professional = some exPlumber._id ∧
        (r.status = "pending" ∨ r.status = "accepted" ∨ r.status = "in_progress")))) ∧
      (∀ r ∈ rs, r.status ≠ "completed" ∧ r.status ≠ "cancelled") ∧
      List.Sorted (fun a b : Request => b.createdAt ≤ a.createdAt) rs ∧
      (listIncoming exThree exPlumber).2 = exThree :=
  C16_listIncoming exThree exPlumber (by decide)

/-! ## Reading one request -/

theorem findUser_id {s : State} {id : Nat} {u : User} (h : User.findById s id = some u) :
    u._id = id := by
  have h1 := List.find?_some h
  simpa using h1

/-- With resolving references, `getRequest` on a stored request compares the
caller with the homeowner and the professional. -/
theorem getRequest_stored {s : State} (caller : User) {id : Nat} {request : Request}
    (hrefs : s.refsResolve = true) (hfind : Request.findById s id = some request) :
    getRequest s caller id =
      if request.homeowner = caller._id ∨ request.professional = some caller._id then
        (.success 200 request, s)
      else (.failure 403 "Not authorized to view this request", s) := by
  have hmem := (findById_id hfind).2
  have hr := List.all_eq_true.1 hrefs request hmem
  simp only [Bool.and_eq_true] at hr
  obtain ⟨hh, hp⟩ := hr
  obtain ⟨homeowner, hhome⟩ := Option.isSome_iff_exists.1 hh
  have hhid := findUser_id hhome
  unfold getRequest
  rw [hfind]
  simp only [hhome]
  cases hprof : request.professional with
  | none =>
    simp [hhid]
  | some pid =>
    rw [hprof] at hp
    obtain ⟨professional, hpro⟩ := Option.isSome_iff_exists.1 hp
    have hpid := findUser_id hpro
    simp only [Option.bind_some, hpro, hhid, hpid, Option.some.injEq]
    by_cases h1 : request.homeowner = caller._id
    · simp [h1]
    · by_cases h2 : pid = caller._id
      · rw [h2] at hpro hpid
        simp [h2, hpro, hpid]
      · simp [h1, h2, hpro, hpid]

/-- In a store whose actor references resolve, `getRequest` returns the
request exactly when it is stored under the id and the caller is its homeowner
or its assigned professional; on a stored request any other caller, also when
no professional is assigned, gets 403 (`Forbidden`); an unknown id gets 404
(`NotFound`); the store is unchanged. -/
theorem getRequest_spec (s : State) (caller : User) (id : Nat)
    (hrefs : s.refsResolve = true) :
    (∀ code request, (getRequest s caller id).1 = .success code request ↔
      code = 200 ∧ Request.findById s id = some request ∧
        (request.homeowner = caller._id ∨ request.professional = some caller._id)) ∧
    (∀ request, Request.findById s id = some request → request.homeowner ≠ caller._id →
      request.professional ≠ some caller._id →
      (getRequest s caller id).1 = .failure 403 "Not authorized to view this request" ∧
        (getRequest s caller id).1.kind = some .Forbidden) ∧
    (Request.findById s id = none →
      (getRequest s caller id).1 = .failure 404 "Request not found" ∧
        (getRequest s caller id).1.kind = some .NotFound) ∧
    (getRequest s caller id).2 = s := by
  cases hfind : Request.findById s id with
  | none =>
    have hres : getRequest s caller id = (.failure 404 "Request not found", s) := by
      unfold getRequest; rw [hfind]
    rw [hres]
    refine ⟨fun code request => ?_, fun request h => absurd h (by simp), fun _ => ⟨rfl, rfl⟩, rfl⟩
    constructor
    · intro h; exact absurd h (by simp)
    · intro h; exact absurd h.2.1 (by simp)
  | some stored =>
    rw [getRequest_stored caller hrefs hfind]
    by_cases hc : stored.homeowner = caller._id ∨ stored.professional = some caller._id
    · rw [if_pos hc]
      refine ⟨fun code request => ?_, fun request h h1 h2 => ?_, fun h => absurd h (by simp), rfl⟩
      · constructor
        · intro h
          obtain ⟨h1, h2⟩ := Response.success.inj h
          subst h1 h2
          exact ⟨rfl, rfl, hc⟩
        · rintro ⟨h1, h2, -⟩
          obtain rfl := Option.some.inj h2
          rw [h1]
      · obtain rfl := Option.some.inj h
        exact absurd hc (not_or.2 ⟨h1, h2⟩)
    · rw [if_neg hc]
      refine ⟨fun code request => ?_, fun request h h1 h2 => ⟨rfl, rfl⟩,
        fun h => absurd h (by simp), rfl⟩
      constructor
      · intro h; exact absurd h (by simp)
      · rintro ⟨-, h2, h3⟩
        obtain rfl := Option.some.inj h2
        exact absurd h3 hc

/-- C17 (counterexample): an id of the path that is no ObjectId is answered by
the 500 of the `catch` block, not by `NotFound`. And when the homeowner of the
stored request names no stored user, its assigned professional reads it and
gets 500 as well. -/
theorem C17_counterexample :
    getRequestOf exAssigned exClient .malformed =
        (.failure 500 "Internal server error", exAssigned) ∧
      (getRequestOf exAssigned exClient .malformed).1.kind ≠ some .NotFound ∧
      Request.findById exOrphan 0 = some exRequestAssigned ∧
      exRequestAssigned.professional = some exPlumber._id ∧
      User.findById exOrphan exRequestAssigned.homeowner = none ∧
      getRequestOf exOrphan exPlumber (.objectId 0) =
        (.failure 500 "Internal server error", exOrphan) := by
  decide

/-- C17 (amended): in a store whose homeowner and professional references name
stored users, `getRequest` with a well-formed id returns the request exactly
when it is stored under the id and the caller is its homeowner or its assigned
professional; on a stored request any other caller, also when no professional
is assigned, gets 403 (`Forbidden`); a well-formed id that names no request
gets 404 (`NotFound`); a malformed id gets the 500 of the `catch` block; the
store is unchanged. -/
theorem C17_getRequest (s : State) (caller : User) (id : Nat)
    (hrefs : s.refsResolve = true) :
    (∀ code request, (getRequestOf s caller (.objectId id)).1 = .success code request ↔
      code = 200 ∧ Request.findById s id = some request ∧
        (request.homeowner = caller._id ∨ request.professional = some caller._id)) ∧
    (∀ request, Request.findById s id = some request → request.homeowner ≠ caller._id →
      request.professional ≠ some caller._id →
      (getRequestOf s caller (.objectId id)).1 =
          .failure 403 "Not authorized to view this request" ∧
        (getRequestOf s caller (.objectId id)).1.kind = some .Forbidden) ∧
    (Request.findById s id = none →
      (getRequestOf s caller (.objectId id)).1 = .failure 404 "Request not found" ∧
        (getRequestOf s caller (.objectId id)).1.kind = some .NotFound) ∧
    (getRequestOf s caller (.objectId id)).2 = s ∧
    getRequestOf s caller .malformed = (.failure 500 "Internal server error", s) := by
  obtain ⟨h1, h2, h3, h4⟩ := getRequest_spec s caller id hrefs
  exact ⟨h1, h2, h3, h4, rfl⟩

/-- C17 (witness): the assigned sample request read by its professional. -/
theorem C17_getRequest_witness :
    exAssigned.refsResolve = true ∧
      (getRequestOf exAssigned exPlumber (.objectId 0)).1 = .success 200 exRequestAssigned ∧
      (getRequestOf exAssigned exPlumber (.objectId 0)).2 = exAssigned :=
  ⟨by decide,
    ((C17_getRequest exAssigned exPlumber 0 (by decide)).1 200 exRequestAssigned).2
      ⟨rfl, by decide, by decide⟩,
    (C17_getRequest exAssigned exPlumber 0 (by decide)).2.2.2.1⟩

/-! ## Assignment: the target actor and the closed requests -/

/-- C18 (counterexample): the homeowner names `exOther`, a stored client, as
target: the answer is the 404 `Professional not found`, which reads as
`NotFound` and not as `InvalidAssignment`. -/
theorem C18_counterexample :
    User.findById exCreated 4 = some exOther ∧ exOther.role = "client" ∧
      assignProfessional exCreated exClient 0 (some 4) 11 =
        (.failure 404 "Professional not found", exCreated) ∧
      (assignProfessional exCreated exClient 0 (some 4) 11).1.kind = some .NotFound ∧
      (assignProfessional exCreated exClient 0 (some 4) 11).1.kind ≠
        some .InvalidAssignment := by
  decide

/-- C18 (amended): for a stored request and a stored actor whose role is not
`professional`, `assignProfessional` called by the homeowner with that actor
as target fails with the 404 `Professional not found` (`NotFound`, the answer
given for an unknown professional id), and the store is unchanged. -/
theorem C18_non_professional_target (s : State) (caller : User) (id pid : Nat)
    (request : Request) (actor : User) (now : Nat)
    (hfind : Request.findById s id = some request)
    (howner : request.homeowner = caller._id)
    (hactor : User.findById s pid = some actor)
    (hrole : actor.role ≠ "professional") :
    (assignProfessional s caller id (some pid) now).1 =
        .failure 404 "Professional not found" ∧
      (assignProfessional s caller id (some pid) now).1.kind = some .NotFound ∧
      (assignProfessional s caller id (some pid) now).2 = s := by
  have hres : assignProfessional s caller id (some pid) now =
      (.failure 404 "Professional not found", s) := by
    unfold assignProfessional
    simp [hfind, howner, hactor, hrole]
  rw [hres]
  exact ⟨rfl, rfl, rfl⟩

/-- C18 (witness): the client `exOther` as target. -/
theorem C18_non_professional_target_witness :
    (assignProfessional exCreated exClient 0 (some 4) 11).1 =
        .failure 404 "Professional not found" ∧
      (assignProfessional exCreated exClient 0 (some 4) 11).1.kind = some .NotFound ∧
      (assignProfessional exCreated exClient 0 (some 4) 11).2 = exCreated :=
  C18_non_professional_target exCreated exClient 0 4 exRequest exOther 11
    (by decide) (by decide) (by decide) (by decide)

/-- Past its checks, `assignProfessional` is the `save` of the assigned document. -/
theorem assignProfessional_eq_save {s : State} {caller : User} {id : Nat} {request : Request}
    {professional : User} (pid now : Nat) (hfind : Request.findById s id = some request)
    (howner : request.homeowner = caller._id)
    (hpro : User.findById s pid = some professional)
    (hrole : professional.role = "professional")
    (hskill : request.category ∈ professional.skills) :
    assignProfessional s caller id (some pid) now =
      match Request.save s request
          { request with professional := some pid, status := "pending" } now with
      | some (saved, s1) => (.success 200 saved, s1)
      | none => (internalError, s) := by
  unfold assignProfessional
  simp only [hfind, howner, hpro, hrole, ne_eq, not_true_eq_false, if_false]
  have hc : (!professional.skills.contains request.category) = false := by simpa using hskill
  rw [hc]
  rfl

/-- One accepted assignment: what is answered and stored. -/
theorem assignProfessional_step {s : State} {caller : User} {id : Nat} {request : Request}
    {professional : User} (pid now : Nat) (hfind : Request.findById s id = some request)
    (howner : request.homeowner = caller._id)
    (hpro : User.findById s pid = some professional)
    (hrole : professional.role = "professional")
    (hskill : request.category ∈ professional.skills) (hvalid : request.validate = true) :
    ∃ saved, (assignProfessional s caller id (some pid) now).1 = .success 200 saved ∧
      saved.status = "pending" ∧ saved.professional = some pid ∧
      saved.completedDate = request.completedDate ∧
      Request.findById (assignProfessional s caller id (some pid) now).2 id = some saved := by
  have hdv : Request.validate { request with professional := some pid, status := "pending" } =
      true := by
    unfold Request.validate at hvalid ⊢
    simp only [Bool.and_eq_true, decide_eq_true_eq] at hvalid ⊢
    simp_all [validStatuses]
  obtain ⟨saved, s1, hsave⟩ := save_isSome s request now hdv
  rw [assignProfessional_eq_save pid now hfind howner hpro hrole hskill, hsave]
  obtain ⟨-, hsaved, hs1⟩ := save_eq_some hsave
  have hid : saved._id = id := by rw [hsaved]; exact (findById_id hfind).1
  refine ⟨saved, rfl, by rw [hsaved], by rw [hsaved], by rw [hsaved], ?_⟩
  show Request.findById s1 id = some saved
  rw [hs1]
  unfold Request.findById at hfind ⊢
  simp only [find_updateOne, hid, if_true, hfind]
  rfl

/-- Whatever `assignProfessional` answers, the stored `completedDate` is kept. -/
theorem assignProfessional_completedDate {s : State} (caller : User) {id : Nat}
    {request : Request} (professionalId : Option Nat) (now : Nat)
    (hfind : Request.findById s id = some request) :
    (Request.findById (assignProfessional s caller id professionalId now).2 id).map
      (fun r => r.completedDate) = some request.completedDate := by
  rcases assignProfessional_cases s caller id professionalId now with h | h
  · rw [h.2, hfind]; rfl
  · obtain ⟨pid, request1, professional, saved, -, hfind1, -, -, -, -, hsave, -⟩ := h
    obtain rfl : request = request1 := Option.some.inj (hfind.symm.trans hfind1)
    obtain ⟨-, hsaved, hs1⟩ := save_eq_some hsave
    have hid : saved._id = id := by rw [hsaved]; exact (findById_id hfind).1
    have hcd : saved.completedDate = request.completedDate := by rw [hsaved]
    rw [hs1]
    unfold Request.findById at hfind ⊢
    simp only [find_updateOne, hid, if_true, hfind, Option.map_some', hcd]

/-- C19 (counterexample): the request is `completed`; the homeowner sends it to
`exPlumber` again: the call succeeds and the stored status is `pending`. -/
theorem C19_counterexample :
    Request.findById exCompleted 0 = some exRequestCompleted ∧
      exRequestCompleted.status = "completed" ∧
      (assignProfessional exCompleted exClient 0 (some 2) 13).1 =
        .success 200 exRequestReopened ∧
      Request.findById (assignProfessional exCompleted exClient 0 (some 2) 13).2 0 =
        some exRequestReopened ∧
      exRequestReopened.status = "pending" := by
  decide

/-- C19 (amended): `assignProfessional` does not look at the status. On a
request whose status is `completed` or `cancelled`, a call by the homeowner
that names a professional with the category among its skills succeeds, stores
that professional and moves the status back to `pending`; and whatever the
call and its answer, the stored `completedDate` is unchanged. -/
theorem C19_assign_on_closed_request (s : State) (caller : User) (id : Nat)
    (request : Request) (now : Nat)
    (hfind : Request.findById s id = some request)
    (hclosed : request.status = "completed" ∨ request.status = "cancelled") :
    (∀ professionalId,
      (Request.findById (assignProfessional s caller id professionalId now).2 id).map
        (fun r => r.completedDate) = some request.completedDate) ∧
    (∀ pid professional, request.homeowner = caller._id →
      User.findById s pid = some professional → professional.role = "professional" →
      request.category ∈ professional.skills → request.validate = true →
      ∃ saved, (assignProfessional s caller id (some pid) now).1 = .success 200 saved ∧
        saved.status = "pending" ∧ saved.professional = some pid ∧
        saved.completedDate = request.completedDate ∧
        Request.findById (assignProfessional s caller id (some pid) now).2 id = some saved) := by
  have _ := hclosed
  exact ⟨fun professionalId => assignProfessional_completedDate caller professionalId now hfind,
    fun pid professional howner hpro hrole hskill hvalid =>
      assignProfessional_step pid now hfind howner hpro hrole hskill hvalid⟩

/-- C19 (witness): the completed sample request sent to `exPlumber` again. -/
theorem C19_assign_on_closed_request_witness :
    ((Request.findById (assignProfessional exCompleted exOther 0 (some 3) 13).2 0).map
        (fun r => r.completedDate) = some exRequestCompleted.completedDate) ∧
    (∃ saved, (assignProfessional exCompleted exClient 0 (some 2) 13).1 = .success 200 saved ∧
      saved.status = "pending" ∧ saved.professional = some 2 ∧
      saved.completedDate = exRequestCompleted.completedDate ∧
      Request.findById (assignProfessional exCompleted exClient 0 (some 2) 13).2 0 =
        some saved) :=
  ⟨(C19_assign_on_closed_request exCompleted exOther 0 exRequestCompleted 13
      (by decide) (by decide)).1 (some 3),
    (C19_assign_on_closed_request exCompleted exClient 0 exRequestCompleted 13
      (by decide) (by decide)).2 2 exPlumber (by decide) (by decide) (by decide) (by decide)
      (by decide)⟩

/-! ## Cancellation of work in progress -/

/-- C20 (counterexample): the request is `in_progress`; the update to
`cancelled` by its assigned professional succeeds and the stored status is
`cancelled`. -/
theorem C20_counterexample :
    Request.findById exInProgress 0 = some exRequestInProgress ∧
      exRequestInProgress.status = "in_progress" ∧
      exRequestInProgress.professional = some exPlumber._id ∧
      (advanceStatus exInProgress exPlumber 0 (some "cancelled") 14).1.isFailure = false ∧
      (Request.findById (advanceStatus exInProgress exPlumber 0 (some "cancelled") 14).2 0).map
        (fun r => r.status) = some "cancelled" := by
  decide

/-- C20 (amended): cancellation is still accepted once work is in progress: for
a stored request with status `in_progress`, `advanceStatus` with target
`cancelled` by the assigned professional succeeds and the stored status
becomes `cancelled`. -/
theorem C20_cancel_in_progress (s : State) (caller : User) (id : Nat) (request : Request)
    (now : Nat) (hfind : Request.findById s id = some request)
    (hstatus : request.status = "in_progress")
    (hpro : request.professional = some caller._id) (hvalid : request.validate = true) :
    ∃ saved, (advanceStatus s caller id (some "cancelled") now).1 = .success 200 saved ∧
      saved.status = "cancelled" ∧
      Request.findById (advanceStatus s caller id (some "cancelled") now).2 id = some saved := by
  have _ := hstatus
  obtain ⟨saved, h1, h2, -, -, -, h3⟩ :=
    advanceStatus_step "cancelled" now hfind hpro hvalid (by decide)
  exact ⟨saved, h1, h2, h3⟩

/-- C20 (witness): the sample request in progress. -/
theorem C20_cancel_in_progress_witness :
    ∃ saved, (advanceStatus exInProgress exPlumber 0 (some "cancelled") 14).1 =
        .success 200 saved ∧ saved.status = "cancelled" ∧
      Request.findById (advanceStatus exInProgress exPlumber 0 (some "cancelled") 14).2 0 =
        some saved :=
  C20_cancel_in_progress exInProgress exPlumber 0 exRequestInProgress 14
    (by decide) (by decide) (by decide) (by decide)

/-! ## One call seen from one stored request -/

/-- A stored request after one call: it is still stored under its id, and it is
the same document, or the document an assignment saved, or the document a
status update by its professional saved. -/
theorem step_findById {s : State} (op : Op) {id : Nat} {r : Request}
    (h : Request.findById s id = some r) :
    ∃ r1, Request.findById (step s op).2 id = some r1 ∧
      (r1 = r ∨
        (∃ caller pid now, op = .assign caller id (some pid) now ∧
          r1 = { r with professional := some pid, status := "pending",
                        updatedAt := r1.updatedAt }) ∨
        (∃ caller target now, op = .advance caller id (some target) now ∧
          r.professional = some caller._id ∧ target ∈ validStatuses ∧
          r1 = { advancedDoc r target now with updatedAt := r1.updatedAt })) := by
  cases op with
  | create caller body now =>
    rcases createRequest_cases s caller body now with hc | hc
    · exact ⟨r, by show Request.findById (createRequest s caller body now).2 id = some r
                   rw [hc.2]; exact h, Or.inl rfl⟩
    · obtain ⟨_, _, _, _, _, _, _, saved, -, -, -, -, -, -, -, -, -, -, -, hsave, -⟩ := hc
      obtain ⟨-, -, hs1⟩ := saveNew_eq_some hsave
      refine ⟨r, ?_, Or.inl rfl⟩
      show Request.findById (createRequest s caller body now).2 id = some r
      rw [hs1]
      unfold Request.findById at h ⊢
      rw [List.find?_append, h]
      rfl
  | assign caller id1 professionalId now =>
    rcases assignProfessional_cases s caller id1 professionalId now with hc | hc
    · exact ⟨r, by show Request.findById (assignProfessional s caller id1 professionalId now).2 id
                     = some r
                   rw [hc.2]; exact h, Or.inl rfl⟩
    · obtain ⟨pid, request, professional, saved, hpid, hfind, -, -, -, -, hsave, -⟩ := hc
      obtain ⟨-, hsaved, hs1⟩ := save_eq_some hsave
      have hid : saved._id = id1 := by rw [hsaved]; exact (findById_id hfind).1
      show ∃ r1, Request.findById (assignProfessional s caller id1 professionalId now).2 id
        = some r1 ∧ _
      rw [hs1]
      by_cases hii : id = id1
      · subst hii
        obtain rfl : r = request := Option.some.inj (h.symm.trans hfind)
        refine ⟨saved, ?_, Or.inr (Or.inl ⟨caller, pid, now, by rw [hpid], hsaved⟩)⟩
        unfold Request.findById at h ⊢
        simp only [find_updateOne, hid, if_true, h]
        rfl
      · refine ⟨r, ?_, Or.inl rfl⟩
        unfold Request.findById at h ⊢
        simp only [find_updateOne, hid, hii, if_false, h]
  | advance caller id1 status now =>
    rcases advanceStatus_cases s caller id1 status now with hc | hc
    · exact ⟨r, by show Request.findById (advanceStatus s caller id1 status now).2 id = some r
                   rw [hc.2]; exact h, Or.inl rfl⟩
    · obtain ⟨target, request, saved, hstatus, htarget, hfind, hpro, hsave, -⟩ := hc
      obtain ⟨-, hsaved, hs1⟩ := save_eq_some hsave
      have hid : saved._id = id1 := by
        rw [hsaved]; unfold advancedDoc; split <;> exact (findById_id hfind).1
      show ∃ r1, Request.findById (advanceStatus s caller id1 status now).2 id = some r1 ∧ _
      rw [hs1]
      by_cases hii : id = id1
      · subst hii
        obtain rfl : r = request := Option.some.inj (h.symm.trans hfind)
        refine ⟨saved, ?_,
          Or.inr (Or.inr ⟨caller, target, now, by rw [hstatus], hpro, htarget, hsaved⟩)⟩
        unfold Request.findById at h ⊢
        simp only [find_updateOne, hid, if_true, h]
        rfl
      · refine ⟨r, ?_, Or.inl rfl⟩
        unfold Request.findById at h ⊢
        simp only [find_updateOne, hid, hii, if_false, h]

theorem advancedDoc_completedDate (r : Request) (target : String) (now : Nat) :
    (advancedDoc r target now).completedDate =
      if target = "completed" then some now else r.completedDate := by
  unfold advancedDoc; split <;> rfl

theorem advancedDoc_professional (r : Request) (target : String) (now : Nat) :
    (advancedDoc r target now).professional = r.professional := by
  unfold advancedDoc; split <;> rfl

/-- One call keeps a set `completedDate` set, and keeps its value unless the
call is a status update of this request to `completed`. -/
theorem step_completedDate {s : State} (op : Op) {id : Nat} {r : Request}
    (h : Request.findById s id = some r) :
    ∃ r1, Request.findById (step s op).2 id = some r1 ∧
      (r.completedDate.isSome = true → r1.completedDate.isSome = true) ∧
      (Op.completes id op = false → r1.completedDate = r.completedDate) := by
  obtain ⟨r1, hfind, hcase⟩ := step_findById op h
  refine ⟨r1, hfind, ?_, ?_⟩
  · intro hset
    rcases hcase with rfl | ⟨_, _, _, -, heq⟩ | ⟨_, target, now, -, -, -, heq⟩
    · exact hset
    · rw [heq]; exact hset
    · rw [heq]
      show (advancedDoc r target now).completedDate.isSome = true
      rw [advancedDoc_completedDate]
      split
      · rfl
      · exact hset
  · intro hop
    rcases hcase with rfl | ⟨_, _, _, -, heq⟩ | ⟨_, target, now, hopeq, -, -, heq⟩
    · rfl
    · rw [heq]
    · rw [heq]
      show (advancedDoc r target now).completedDate = r.completedDate
      rw [advancedDoc_completedDate]
      have hne : target ≠ "completed" := by
        intro ht
        rw [hopeq, ht] at hop
        simp [Op.completes] at hop
      rw [if_neg hne]

/-- One call keeps a set `professional` set. -/
theorem step_professional {s : State} (op : Op) {id : Nat} {r : Request}
    (h : Request.findById s id = some r) :
    ∃ r1, Request.findById (step s op).2 id = some r1 ∧
      (r.professional.isSome = true → r1.professional.isSome = true) := by
  obtain ⟨r1, hfind, hcase⟩ := step_findById op h
  refine ⟨r1, hfind, fun hset => ?_⟩
  rcases hcase with rfl | ⟨_, _, _, -, heq⟩ | ⟨_, target, now, -, -, -, heq⟩
  · exact hset
  · rw [heq]; rfl
  · rw [heq]
    show (advancedDoc r target now).professional.isSome = true
    rw [advancedDoc_professional]
    exact hset

theorem run_completedDate {s : State} (ops : List Op) {id : Nat} {r : Request}
    (h : Request.findById s id = some r) :
    ∃ r1, Request.findById (run s ops) id = some r1 ∧
      (r.completedDate.isSome = true → r1.completedDate.isSome = true) ∧
      ((∀ op ∈ ops, Op.completes id op = false) → r1.completedDate = r.completedDate) := by
  induction ops generalizing s r with
  | nil => exact ⟨r, h, fun hs => hs, fun _ => rfl⟩
  | cons op ops ih =>
    obtain ⟨r1, h1, hset1, hval1⟩ := step_completedDate op h
    obtain ⟨r2, h2, hset2, hval2⟩ := ih h1
    refine ⟨r2, h2, fun hs => hset2 (hset1 hs), fun hall => ?_⟩
    rw [hval2 (fun o ho => hall o (List.mem_cons_of_mem _ ho)),
      hval1 (hall op (List.mem_cons_self _ _))]

theorem run_professional {s : State} (ops : List Op) {id : Nat} {r : Request}
    (h : Request.findById s id = some r) :
    ∃ r1, Request.findById (run s ops) id = some r1 ∧
      (r.professional.isSome = true → r1.professional.isSome = true) := by
  induction ops generalizing s r with
  | nil => exact ⟨r, h, fun hs => hs⟩
  | cons op ops ih =>
    obtain ⟨r1, h1, hset1⟩ := step_professional op h
    obtain ⟨r2, h2, hset2⟩ := ih h1
    exact ⟨r2, h2, fun hs => hset2 (hset1 hs)⟩

/-- A document stored after one call was stored before, or is `pending`, or has
a professional. -/
theorem step_mem_assigned {s : State} (op : Op) {r : Request}
    (h : r ∈ (step s op).2.requests) :
    r ∈ s.requests ∨ r.status = "pending" ∨ r.professional.isSome = true := by
  cases op with
  | create caller body now =>
    rcases createRequest_cases s caller body now with hc | hc
    · left
      have h1 : r ∈ (createRequest s caller body now).2.requests := h
      rw [hc.2] at h1; exact h1
    · obtain ⟨_, _, _, _, _, _, _, saved, -, -, -, -, -, -, -, -, -, -, -, hsave, -⟩ := hc
      obtain ⟨-, hsaved, hs1⟩ := saveNew_eq_some hsave
      have h1 : r ∈ (createRequest s caller body now).2.requests := h
      rw [hs1] at h1
      rcases List.mem_append.1 h1 with h2 | h2
      · exact Or.inl h2
      · have hr : r = saved := by simpa using h2
        right; left
        rw [hr, hsaved]; rfl
  | assign caller id professionalId now =>
    rcases assignProfessional_cases s caller id professionalId now with hc | hc
    · left
      have h1 : r ∈ (assignProfessional s caller id professionalId now).2.requests := h
      rw [hc.2] at h1; exact h1
    · obtain ⟨pid, request, professional, saved, -, -, -, -, -, -, hsave, -⟩ := hc
      obtain ⟨-, hsaved, hs1⟩ := save_eq_some hsave
      have h1 : r ∈ (assignProfessional s caller id professionalId now).2.requests := h
      rw [hs1] at h1
      rcases mem_updateOne h1 with h2 | h2
      · exact Or.inl h2
      · right; left
        rw [h2, hsaved]
  | advance caller id status now =>
    rcases advanceStatus_cases s caller id status now with hc | hc
    · left
      have h1 : r ∈ (advanceStatus s caller id status now).2.requests := h
      rw [hc.2] at h1; exact h1
    · obtain ⟨target, request, saved, -, -, -, hpro, hsave, -⟩ := hc
      obtain ⟨-, hsaved, hs1⟩ := save_eq_some hsave
      have h1 : r ∈ (advanceStatus s caller id status now).2.requests := h
      rw [hs1] at h1
      rcases mem_updateOne h1 with h2 | h2
      · exact Or.inl h2
      · right; right
        rw [h2, hsaved]
        show (advancedDoc request target now).professional.isSome = true
        rw [advancedDoc_professional, hpro]
        rfl

theorem run_assigned {s : State} (ops : List Op)
    (h : ∀ r ∈ s.requests, r.status ≠ "pending" → r.professional.isSome = true) :
    ∀ r ∈ (run s ops).requests, r.status ≠ "pending" → r.professional.isSome = true := by
  induction ops generalizing s with
  | nil => exact h
  | cons op ops ih =>
    apply ih
    intro r hr hne
    rcases step_mem_assigned op hr with h1 | h1 | h1
    · exact h r h1 hne
    · exact absurd h1 hne
    · exact h1

/-! ## The completion date and the professional over time -/

/-- C21 (counterexample): the request was completed at time 12; a second update
to `completed` at time 20 succeeds and the stored `completedDate` is 20. -/
theorem C21_counterexample :
    (Request.findById exCompleted 0).map (fun r => r.completedDate) = some (some 12) ∧
      (advanceStatus exCompleted exPlumber 0 (some "completed") 20).1.isFailure = false ∧
      (Request.findById (advanceStatus exCompleted exPlumber 0 (some "completed") 20).2 0).map
        (fun r => r.completedDate) = some (some 20) := by
  decide

/-- C21 (amended): after every sequence of calls a stored request is still
stored, a `completedDate` that was set is still set, and its value is the same
when the sequence has no status update of that request to `completed`. -/
theorem C21_completedDate_kept (s : State) (id : Nat) (r : Request) (ops : List Op)
    (hfind : Request.findById s id = some r) :
    ∃ r1, Request.findById (run s ops) id = some r1 ∧
      (r.completedDate.isSome = true → r1.completedDate.isSome = true) ∧
      ((∀ op ∈ ops, Op.completes id op = false) → r1.completedDate = r.completedDate) :=
  run_completedDate ops hfind

/-- C21 (witness): the completed sample request is sent to the plumber again
and accepted. -/
theorem C21_completedDate_kept_witness :
    ∃ r1, Request.findById (run exCompleted
        [.assign exClient 0 (some 2) 13, .advance exPlumber 0 (some "accepted") 14]) 0 =
        some r1 ∧
      (exRequestCompleted.completedDate.isSome = true → r1.completedDate.isSome = true) ∧
      ((∀ op ∈ [Op.assign exClient 0 (some 2) 13, Op.advance exPlumber 0 (some "accepted") 14],
        Op.completes 0 op = false) → r1.completedDate = exRequestCompleted.completedDate) :=
  C21_completedDate_kept exCompleted 0 exRequestCompleted _ (by decide)

/-- C22: in every store reachable from an empty one, every request whose status
is not `pending` has a professional, and the professional of a stored request,
once set, is still set after every sequence of calls. -/
theorem C22_professional_set (s : State) (h : Reachable s) :
    (∀ r ∈ s.requests, r.status ≠ "pending" → r.professional.isSome = true) ∧
    (∀ (ops : List Op) (id : Nat) (r : Request), Request.findById s id = some r →
      r.professional.isSome = true →
      ∃ r1, Request.findById (run s ops) id = some r1 ∧ r1.professional.isSome = true) := by
  constructor
  · obtain ⟨users, ops, rfl⟩ := h
    exact run_assigned ops (fun r hr => by simp [State.empty] at hr)
  · intro ops id r hfind hset
    obtain ⟨r1, h1, h2⟩ := run_professional ops hfind
    exact ⟨r1, h1, h2 hset⟩

/-- C22 (witness): the sample request in progress, then completed and sent
again. -/
theorem C22_professional_set_witness :
    (exRequestInProgress ∈ exInProgress.requests ∧ exRequestInProgress.status ≠ "pending" ∧
      exRequestInProgress.professional.isSome = true) ∧
    (∃ r1, Request.findById (run exInProgress
        [.advance exPlumber 0 (some "completed") 14, .assign exClient 0 (some 2) 15]) 0 =
        some r1 ∧ r1.professional.isSome = true) :=
  ⟨⟨by decide, by decide,
      (C22_professional_set exInProgress ⟨exUsers, _, rfl⟩).1 exRequestInProgress (by decide)
        (by decide)⟩,
    (C22_professional_set exInProgress ⟨exUsers, _, rfl⟩).2 _ 0 exRequestInProgress (by decide)
      (by decide)⟩

/-! ## The identity directory -/

theorem save_users (s : State) (users : List User) (orig doc : Request) (now : Nat) :
    Request.save { s with users := users } orig doc now =
      (Request.save s orig doc now).map (fun p => (p.1, { p.2 with users := users })) := by
  unfold Request.save
  split <;> rfl

/-- The status route reads the caller's id and the request collection only. -/
theorem advanceStatus_users (s : State) (users : List User) (caller caller1 : User) (id : Nat)
    (status : Option String) (now : Nat) (hid : caller1._id = caller._id) :
    advanceStatus { s with users := users } caller1 id status now =
      ((advanceStatus s caller id status now).1,
        { (advanceStatus s caller id status now).2 with users := users }) := by
  cases status with
  | none => rfl
  | some target =>
    unfold advanceStatus
    have hf : Request.findById { s with users := users } id = Request.findById s id := rfl
    simp only [hf, hid, save_users]
    split
    · rfl
    · split
      · rfl
      · cases Request.findById s id with
        | none => rfl
        | some request =>
          simp only []
          cases request.professional with
          | none => rfl
          | some p =>
            simp only []
            split
            · rfl
            · cases Request.save s request _ now <;> rfl

theorem advanceStatus_keeps_users (s : State) (caller : User) (id : Nat)
    (status : Option String) (now : Nat) :
    (advanceStatus s caller id status now).2.users = s.users := by
  rcases advanceStatus_cases s caller id status now with hc | hc
  · rw [hc.2]
  · obtain ⟨_, _, saved, -, -, -, -, hsave, -⟩ := hc
    rw [(save_eq_some hsave).2.2]

theorem find_eraseSkills (us : List User) (id : Nat) :
    (us.find? (fun u => decide (u._id = id))).map User.eraseSkills =
      (us.map User.eraseSkills).find? (fun u => decide (u._id = id)) := by
  induction us with
  | nil => rfl
  | cons x xs ih =>
    by_cases h : x._id = id
    · simp [List.find?_cons, h, User.eraseSkills]
    · simp only [List.map_cons, List.find?_cons]
      have h1 : decide (x._id = id) = false := by simpa using h
      have h2 : decide (x.eraseSkills._id = id) = false := h1
      rw [h1, h2]
      exact ih

/-- The populated view of a user is the same, up to its skills, in two
directories that differ in skills only. -/
theorem findView_eraseSkills {s1 s2 : State}
    (h : s1.users.map User.eraseSkills = s2.users.map User.eraseSkills) (id : Nat) :
    ((User.findById s1 id).map User.select).map UserView.eraseSkills =
      ((User.findById s2 id).map User.select).map UserView.eraseSkills := by
  have hcomm : ∀ o : Option User, (o.map User.select).map UserView.eraseSkills =
      (o.map User.eraseSkills).map User.select := by
    intro o; cases o <;> rfl
  unfold User.findById
  rw [hcomm, hcomm, find_eraseSkills, find_eraseSkills, h]

theorem populate_eraseSkills {s1 s2 : State}
    (h : s1.users.map User.eraseSkills = s2.users.map User.eraseSkills) (code : Nat)
    (r : Request) :
    (Answer.success code (populate s1 r)).eraseSkills =
      (Answer.success code (populate s2 r)).eraseSkills := by
  have hh := findView_eraseSkills h r.homeowner
  have hp : ((r.professional.bind (User.findById s1)).map User.select).map
        UserView.eraseSkills =
      ((r.professional.bind (User.findById s2)).map User.select).map UserView.eraseSkills := by
    cases r.professional with
    | none => rfl
    | some pid => exact findView_eraseSkills h pid
  simp only [Answer.eraseSkills, populate, hh, hp]

/-- C23 (counterexample): the two directories differ only in the skills of the
plumber; the update of the assigned request to `accepted` succeeds on both,
and the populated professional of the answer has skill `plumbing` on the one
and `electrical` on the other, so the answers differ. -/
theorem C23_counterexample :
    exUsersLost.map User.eraseSkills = exAssigned.users.map User.eraseSkills ∧
      (advanceStatusAnswer exAssigned exPlumber 0 (some "accepted") 12).professionalSkills =
        some ["plumbing"] ∧
      (advanceStatusAnswer { exAssigned with users := exUsersLost }
        { exPlumber with skills := ["electrical"] } 0 (some "accepted") 12).professionalSkills =
        some ["electrical"] ∧
      advanceStatusAnswer exAssigned exPlumber 0 (some "accepted") 12 ≠
        advanceStatusAnswer { exAssigned with users := exUsersLost }
          { exPlumber with skills := ["electrical"] } 0 (some "accepted") 12 := by
  decide

/-- C23 (amended): for two identity directories that differ only in skill sets,
and the same caller up to its skills, `advanceStatus` on the same request
collection with the same request id, target status and time succeeds or fails
alike, saves the same request and leaves the same request collection; the
answers as sent are the same up to the skills of the populated homeowner and
professional, which are those of the directory at hand. -/
theorem C23_advanceStatus_ignores_skills (s : State) (users : List User)
    (caller caller1 : User) (id : Nat) (status : Option String) (now : Nat)
    (husers : users.map User.eraseSkills = s.users.map User.eraseSkills)
    (hcaller : caller1.eraseSkills = caller.eraseSkills) :
    (advanceStatus { s with users := users } caller1 id status now).1 =
        (advanceStatus s caller id status now).1 ∧
      (advanceStatus { s with users := users } caller1 id status now).2.requests =
        (advanceStatus s caller id status now).2.requests ∧
      (advanceStatus { s with users := users } caller1 id status now).2.nextId =
        (advanceStatus s caller id status now).2.nextId ∧
      (advanceStatusAnswer { s with users := users } caller1 id status now).eraseSkills =
        (advanceStatusAnswer s caller id status now).eraseSkills := by
  have hid : caller1._id = caller._id := by
    show caller1.eraseSkills._id = caller.eraseSkills._id
    rw [hcaller]
  have hadv := advanceStatus_users s users caller caller1 id status now hid
  refine ⟨by rw [hadv], by rw [hadv], by rw [hadv], ?_⟩
  unfold advanceStatusAnswer
  rw [hadv]
  have hkeep := advanceStatus_keeps_users s caller id status now
  cases hres : advanceStatus s caller id status now with
  | mk resp s2 =>
    rw [hres] at hkeep
    cases resp with
    | failure code error => rfl
    | success code r =>
      apply populate_eraseSkills
      show users.map User.eraseSkills = s2.users.map User.eraseSkills
      rw [husers]
      exact congrArg (List.map User.eraseSkills) hkeep.symm

/-- C23 (witness): the plumber has lost the plumbing skill and still moves the
assigned plumbing request to `accepted`. -/
theorem C23_advanceStatus_ignores_skills_witness :
    ((advanceStatus { exAssigned with users := exUsersLost }
          { exPlumber with skills := ["electrical"] } 0 (some "accepted") 12).1 =
        (advanceStatus exAssigned exPlumber 0 (some "accepted") 12).1 ∧
      (advanceStatus { exAssigned with users := exUsersLost }
          { exPlumber with skills := ["electrical"] } 0 (some "accepted") 12).2.requests =
        (advanceStatus exAssigned exPlumber 0 (some "accepted") 12).2.requests ∧
      (advanceStatus { exAssigned with users := exUsersLost }
          { exPlumber with skills := ["electrical"] } 0 (some "accepted") 12).2.nextId =
        (advanceStatus exAssigned exPlumber 0 (some "accepted") 12).2.nextId ∧
      (advanceStatusAnswer { exAssigned with users := exUsersLost }
          { exPlumber with skills := ["electrical"] } 0 (some "accepted") 12).eraseSkills =
        (advanceStatusAnswer exAssigned exPlumber 0 (some "accepted") 12).eraseSkills) ∧
    (advanceStatus exAssigned exPlumber 0 (some "accepted") 12).1.isFailure = false :=
  ⟨C23_advanceStatus_ignores_skills exAssigned exUsersLost exPlumber
      { exPlumber with skills := ["electrical"] } 0 (some "accepted") 12 (by decide) (by decide),
    by decide⟩

/-- C24: no call of `createRequest`, `assignProfessional`, `advanceStatus`,
`getRequest`, `listMine` or `listIncoming`, whatever its answer, changes the
collection of users. -/
theorem C24_directory_not_mutated (s : State) (caller : User) (body : CreateBody) (id : Nat)
    (professionalId : Option Nat) (status : Option String) (now : Nat) :
    (createRequest s caller body now).2.users = s.users ∧
      (assignProfessional s caller id professionalId now).2.users = s.users ∧
      (advanceStatus s caller id status now).2.users = s.users ∧
      (getRequest s caller id).2.users = s.users ∧
      (listMine s caller).2.users = s.users ∧
      (listIncoming s caller).2.users = s.users := by
  refine ⟨?_, ?_, ?_, ?_, rfl, ?_⟩
  · rcases createRequest_cases s caller body now with hc | hc
    · rw [hc.2]
    · obtain ⟨_, _, _, _, _, _, _, saved, -, -, -, -, -, -, -, -, -, -, -, hsave, -⟩ := hc
      rw [(saveNew_eq_some hsave).2.2]
  · rcases assignProfessional_cases s caller id professionalId now with hc | hc
    · rw [hc.2]
    · obtain ⟨_, _, _, saved, -, -, -, -, -, -, hsave, -⟩ := hc
      rw [(save_eq_some hsave).2.2]
  · rcases advanceStatus_cases s caller id status now with hc | hc
    · rw [hc.2]
    · obtain ⟨_, _, saved, -, -, -, -, hsave, -⟩ := hc
      rw [(save_eq_some hsave).2.2]
  · unfold getRequest
    repeat' split
    all_goals first | rfl | (dsimp only; split <;> rfl)
  · unfold listIncoming
    split <;> rfl

/-! ## Unknown ids -/

/-- C25 (counterexample): no request has id 99; the status update of request 99
to `done` is answered by the 400 `Invalid status`, which reads as
`ValidationError` and not as `NotFound`, and an assignment of request 99
without professional id is answered by a 400 as well. A request id or a
professional id that is no ObjectId is answered by the 500 of the `catch`
block. -/
theorem C25_counterexample :
    Request.findById exCreated 99 = none ∧
      advanceStatusOf exCreated exPlumber (.objectId 99) (some "done") 11 =
        (.failure 400 "Invalid status", exCreated) ∧
      (advanceStatusOf exCreated exPlumber (.objectId 99) (some "done") 11).1.kind ≠
        some .NotFound ∧
      assignProfessionalOf exCreated exClient (.objectId 99) none 11 =
        (.failure 400 "Professional ID is required", exCreated) ∧
      (assignProfessionalOf exCreated exClient (.objectId 99) none 11).1.kind ≠
        some .NotFound ∧
      advanceStatusOf exCreated exPlumber .malformed (some "accepted") 11 =
        (.failure 500 "Internal server error", exCreated) ∧
      assignProfessionalOf exCreated exClient (.objectId 0) (some .malformed) 11 =
        (.failure 500 "Internal server error", exCreated) := by
  decide

/-- C25 (amended): with a well-formed request id that is not in the store, and
whoever the caller is, `assignProfessional` with any professional id given,
`advanceStatus` with a target among the five statuses and `getRequest` fail
with 404 (`NotFound`); `assignProfessional` by the homeowner of a stored
request with a well-formed professional id that names no user fails with 404
(`NotFound`); in each case the store is unchanged. -/
theorem C25_unknown_ids (s : State) (caller : User) (now : Nat) :
    (∀ id, Request.findById s id = none →
      (∀ professionalId : IdParam,
        assignProfessionalOf s caller (.objectId id) (some professionalId) now =
            (.failure 404 "Request not found", s) ∧
          (assignProfessionalOf s caller (.objectId id) (some professionalId) now).1.kind =
            some .NotFound) ∧
      (∀ target, target ∈ validStatuses →
        advanceStatusOf s caller (.objectId id) (some target) now =
            (.failure 404 "Request not found", s) ∧
          (advanceStatusOf s caller (.objectId id) (some target) now).1.kind =
            some .NotFound) ∧
      getRequestOf s caller (.objectId id) = (.failure 404 "Request not found", s) ∧
      (getRequestOf s caller (.objectId id)).1.kind = some .NotFound) ∧
    (∀ id request pid, Request.findById s id = some request →
      request.homeowner = caller._id → User.findById s pid = none →
      assignProfessionalOf s caller (.objectId id) (some (.objectId pid)) now =
          (.failure 404 "Professional not found", s) ∧
        (assignProfessionalOf s caller (.objectId id) (some (.objectId pid)) now).1.kind =
          some .NotFound) := by
  constructor
  · intro id hnone
    have h1 : ∀ professionalId : IdParam,
        assignProfessionalOf s caller (.objectId id) (some professionalId) now =
          (.failure 404 "Request not found", s) := by
      intro professionalId
      unfold assignProfessionalOf
      simp [hnone]
    have h2 : ∀ target, target ∈ validStatuses →
        advanceStatusOf s caller (.objectId id) (some target) now =
          (.failure 404 "Request not found", s) := by
      intro target htarget
      have hne : target ≠ "" := by
        intro he; rw [he] at htarget; exact absurd htarget (by decide)
      show advanceStatus s caller id (some target) now = _
      unfold advanceStatus
      simp [hne, htarget, hnone]
    have h3 : getRequestOf s caller (.objectId id) = (.failure 404 "Request not found", s) := by
      show getRequest s caller id = _
      unfold getRequest; simp [hnone]
    refine ⟨fun professionalId => ?_, fun target htarget => ?_, h3, ?_⟩
    · rw [h1 professionalId]; exact ⟨rfl, rfl⟩
    · rw [h2 target htarget]; exact ⟨rfl, rfl⟩
    · rw [h3]; rfl
  · intro id request pid hfind howner hpro
    have h4 : assignProfessionalOf s caller (.objectId id) (some (.objectId pid)) now =
        (.failure 404 "Professional not found", s) := by
      unfold assignProfessionalOf assignProfessional
      simp [hfind, howner, hpro]
    rw [h4]
    exact ⟨rfl, rfl⟩

/-- C25 (witness): request 99 and user 77 do not exist; the stranger `exOther`
asks for request 99, the homeowner `exClient` names user 77. -/
theorem C25_unknown_ids_witness :
    (assignProfessionalOf exCreated exOther (.objectId 99) (some .malformed) 11 =
        (.failure 404 "Request not found", exCreated) ∧
      (assignProfessionalOf exCreated exOther (.objectId 99) (some .malformed) 11).1.kind =
        some .NotFound) ∧
    (advanceStatusOf exCreated exOther (.objectId 99) (some "accepted") 11 =
        (.failure 404 "Request not found", exCreated) ∧
      (advanceStatusOf exCreated exOther (.objectId 99) (some "accepted") 11).1.kind =
        some .NotFound) ∧
    (getRequestOf exCreated exOther (.objectId 99) =
        (.failure 404 "Request not found", exCreated)) ∧
    (assignProfessionalOf exCreated exClient (.objectId 0) (some (.objectId 77)) 11 =
        (.failure 404 "Professional not found", exCreated) ∧
      (assignProfessionalOf exCreated exClient (.objectId 0) (some (.objectId 77)) 11).1.kind =
        some .NotFound) :=
  ⟨((C25_unknown_ids exCreated exOther 11).1 99 (by decide)).1 .malformed,
    ((C25_unknown_ids exCreated exOther 11).1 99 (by decide)).2.1 "accepted" (by decide),
    ((C25_unknown_ids exCreated exOther 11).1 99 (by decide)).2.2.1,
    (C25_unknown_ids exCreated exClient 11).2 0 exRequest 77 (by decide) (by decide)
      (by decide)⟩

/-! ## Two accepts of the same request -/

/-- The failure answers of the status route carry 400, 403, 404 or 500. -/
theorem advanceStatus_failure_code (s : State) (caller : User) (id : Nat)
    (status : Option String) (now code : Nat) (error : String)
    (h : (advanceStatus s caller id status now).1 = .failure code error) :
    code = 400 ∨ code = 403 ∨ code = 404 ∨ code = 500 := by
  rcases advanceStatus_cases s caller id status now with hc | hc
  · revert h
    unfold advanceStatus
    split
    · intro h; simp at h; omega
    · split
      · intro h; simp at h; omega
      · split
        · intro h; simp at h; omega
        · split
          · intro h; simp at h; omega
          · split
            · intro h; simp [internalError] at h; omega
            · split
              · intro h; simp at h; omega
              · dsimp only
                split
                · intro h; simp at h
                · intro h; simp [internalError] at h; omega
  · obtain ⟨_, _, saved, -, -, -, -, -, hres⟩ := hc
    rw [hres] at h
    exact absurd h (by simp)

theorem advanceStatusOf_failure_code (s : State) (caller : User) (requestId : IdParam)
    (status : Option String) (now code : Nat) (error : String)
    (h : (advanceStatusOf s caller requestId status now).1 = .failure code error) :
    code = 400 ∨ code = 403 ∨ code = 404 ∨ code = 500 := by
  cases requestId with
  | objectId id => exact advanceStatus_failure_code s caller id status now code error h
  | malformed =>
    revert h
    unfold advanceStatusOf
    dsimp only
    split
    · intro h; simp at h; omega
    · split
      · intro h; simp at h; omega
      · split
        · intro h; simp at h; omega
        · intro h; simp [internalError] at h; omega

/-- C26 (counterexample): the request is `pending` and assigned to `exPlumber`;
the accept at time 12 succeeds, and a second accept at time 13, run on the store
the first one left, succeeds as well. -/
theorem C26_counterexample :
    Request.findById exAssigned 0 = some exRequestAssigned ∧
      exRequestAssigned.status = "pending" ∧
      (advanceStatus exAssigned exPlumber 0 (some "accepted") 12).1.isFailure = false ∧
      (advanceStatus (advanceStatus exAssigned exPlumber 0 (some "accepted") 12).2 exPlumber 0
        (some "accepted") 13).1.isFailure = false ∧
      (advanceStatus (advanceStatus exAssigned exPlumber 0 (some "accepted") 12).2 exPlumber 0
        (some "accepted") 13).1.kind = none := by
  decide

/-- C26 (amended): there is no conflict detection. Of two `advanceStatus` calls
with target `accepted` by the assigned professional on the same stored
`pending` request, run one after the other, both succeed and each answers with
status `accepted`; and every failure answer of the status route, whatever the
call, carries 400, 403, 404 or 500, so none is a conflict answer. -/
theorem C26_both_accepts_succeed (s : State) (P : User) (id : Nat) (request : Request)
    (t1 t2 : Nat) (hfind : Request.findById s id = some request)
    (hvalid : request.validate = true) (hstatus : request.status = "pending")
    (hpro : request.professional = some P._id) :
    (∃ r1 r2, (advanceStatus s P id (some "accepted") t1).1 = .success 200 r1 ∧
      r1.status = "accepted" ∧
      (advanceStatus (advanceStatus s P id (some "accepted") t1).2 P id
        (some "accepted") t2).1 = .success 200 r2 ∧
      r2.status = "accepted") ∧
    (∀ (s1 : State) (caller : User) (requestId : IdParam) (status : Option String)
      (now code : Nat) (error : String),
      (advanceStatusOf s1 caller requestId status now).1 = .failure code error →
      code = 400 ∨ code = 403 ∨ code = 404 ∨ code = 500) := by
  have _ := hstatus
  obtain ⟨r1, h1, hs1, -, hp1, hv1, hf1⟩ :=
    advanceStatus_step "accepted" t1 hfind hpro hvalid (by decide)
  obtain ⟨r2, h2, hs2, -, -, -, -⟩ :=
    advanceStatus_step "accepted" t2 hf1 (hp1.trans hpro) hv1 (by decide)
  exact ⟨⟨r1, r2, h1, hs1, h2, hs2⟩, advanceStatusOf_failure_code⟩

/-- C26 (witness): the two accepts of the sample request. -/
theorem C26_both_accepts_succeed_witness :
    ∃ r1 r2, (advanceStatus exAssigned exPlumber 0 (some "accepted") 12).1 = .success 200 r1 ∧
      r1.status = "accepted" ∧
      (advanceStatus (advanceStatus exAssigned exPlumber 0 (some "accepted") 12).2 exPlumber 0
        (some "accepted") 13).1 = .success 200 r2 ∧
      r2.status = "accepted" :=
  (C26_both_accepts_succeed exAssigned exPlumber 0 exRequestAssigned 12 13 (by decide)
    (by decide) (by decide) (by decide)).1

/-! ## The skills of a user -/

theorem skillsValidator_iff (ALLOWED_SKILLS : List String) (role : String)
    (value : List String) :
    skillsValidator ALLOWED_SKILLS role value = true ↔
      (role ≠ "professional" ∧ value = []) ∨
        (role = "professional" ∧ value ≠ [] ∧ ∀ x ∈ value, x ∈ ALLOWED_SKILLS) := by
  unfold skillsValidator
  by_cases hrole : role = "professional"
  · cases value with
    | nil => simp [hrole]
    | cons x xs => simp [hrole]
  · simp [hrole]

/-- C28: the validator of the `skills` path accepts an array exactly when the
role is not `professional` and the array is empty, or the role is
`professional` and the array is non-empty with every element in
`ALLOWED_SKILLS`. -/
theorem C28_skills_validator (ALLOWED_SKILLS : List String) (role : String)
    (value : List String) :
    skillsValidator ALLOWED_SKILLS role value = true ↔
      (role ≠ "professional" ∧ value = []) ∨
        (role = "professional" ∧ value ≠ [] ∧ ∀ x ∈ value, x ∈ ALLOWED_SKILLS) :=
  skillsValidator_iff ALLOWED_SKILLS role value

theorem find_updateUser (us : List User) (doc : User) (id : Nat) :
    (updateUser us doc).find? (fun u => decide (u._id = id)) =
      if id = doc._id then (us.find? (fun u => decide (u._id = id))).map (fun _ => doc)
      else us.find? (fun u => decide (u._id = id)) := by
  induction us with
  | nil => simp [updateUser]
  | cons x xs ih =>
    simp only [updateUser]
    by_cases hx : x._id = doc._id
    · by_cases hid : id = doc._id
      · simp [hx, hid]
      · have h2 : ¬ doc._id = id := fun h => hid h.symm
        simp [hx, hid, List.find?_cons, h2]
    · by_cases hxi : x._id = id
      · have : ¬ id = doc._id := fun h => hx (hxi.trans h)
        simp [hx, hxi, this, List.find?_cons]
      · simp [hx, hxi, List.find?_cons, ih]

theorem withName_role (user : User) (name : Option String) :
    (withName user name).role = user.role ∧ (withName user name)._id = user._id := by
  unfold withName
  split
  · split <;> exact ⟨rfl, rfl⟩
  · exact ⟨rfl, rfl⟩

theorem withRole_id (user : User) (role : Option String) :
    (withRole user role)._id = user._id := by
  unfold withRole
  split
  · split <;> rfl
  · rfl

theorem userSave_eq_some {ALLOWED_SKILLS : List String} {s s1 : State} {doc saved : User}
    (h : User.save ALLOWED_SKILLS s doc = some (saved, s1)) :
    doc.validate ALLOWED_SKILLS = true ∧ saved = doc ∧
      s1 = { s with users := updateUser s.users doc } := by
  unfold User.save at h
  split at h
  · rename_i hv
    simp only [Option.some.injEq, Prod.mk.injEq] at h
    exact ⟨hv, h.1.symm, h.2.symm⟩
  · exact absurd h (by simp)

/-- Either `updateMe` fails and writes nothing, or a valid document with the
caller's id is written over the caller's user. -/
theorem updateMe_cases (ALLOWED_SKILLS : List String) (s : State) (reqUser : Option User)
    (body : ProfileBody) :
    ((∃ code message, (updateMe ALLOWED_SKILLS s reqUser body).1 = .failure code message) ∧
        (updateMe ALLOWED_SKILLS s reqUser body).2 = s) ∨
    ∃ caller user doc, reqUser = some caller ∧ User.findById s caller._id = some user ∧
      doc._id = caller._id ∧ doc.validate ALLOWED_SKILLS = true ∧
      updateMe ALLOWED_SKILLS s reqUser body =
        (.success doc.select, { s with users := updateUser s.users doc }) := by
  unfold updateMe
  split
  · exact Or.inl ⟨⟨_, _, rfl⟩, rfl⟩
  · rename_i caller
    split
    · exact Or.inl ⟨⟨_, _, rfl⟩, rfl⟩
    · rename_i user huser
      have hid : (withRole (withName user body.name) body.role)._id = caller._id := by
        rw [withRole_id, (withName_role user body.name).2]
        exact findUser_id huser
      dsimp only
      split
      · split
        · exact Or.inl ⟨⟨_, _, rfl⟩, rfl⟩
        · split
          · exact Or.inl ⟨⟨_, _, rfl⟩, rfl⟩
          · split
            · exact Or.inl ⟨⟨_, _, rfl⟩, rfl⟩
            · split
              · rename_i saved s1 hsave
                obtain ⟨hv, rfl, rfl⟩ := userSave_eq_some hsave
                refine Or.inr ⟨caller, user, _, rfl, huser, ?_, hv, rfl⟩
                exact hid
              · exact Or.inl ⟨⟨_, _, rfl⟩, rfl⟩
      · split
        · rename_i saved s1 hsave
          obtain ⟨hv, rfl, rfl⟩ := userSave_eq_some hsave
          refine Or.inr ⟨caller, user, _, rfl, huser, ?_, hv, rfl⟩
          exact hid
        · exact Or.inl ⟨⟨_, _, rfl⟩, rfl⟩

theorem withRole_withName_role (user : User) (name role : Option String) :
    (withRole (withName user name) role).role = (withRole user role).role := by
  unfold withRole
  split
  · split
    · rfl
    · exact (withName_role user name).1
  · exact (withName_role user name).1

theorem validate_skills {ALLOWED_SKILLS : List String} {u : User}
    (h : u.validate ALLOWED_SKILLS = true) :
    skillsValidator ALLOWED_SKILLS u.role u.skills = true := by
  unfold User.validate at h
  simp only [Bool.and_eq_true] at h
  exact h.2

/-- C27: after a successful `PUT /me` the stored user has skills if and only if
its role is `professional`, and each of its skills is in `ALLOWED_SKILLS`; an
update after which the role is `professional`, with skills that are missing,
empty or not all in `ALLOWED_SKILLS`, is answered by a 400 and nothing is
saved. -/
theorem C27_profile_update (ALLOWED_SKILLS : List String) (s : State) (reqUser : Option User)
    (body : ProfileBody) :
    (∀ view, (updateMe ALLOWED_SKILLS s reqUser body).1 = .success view →
      ∃ caller stored, reqUser = some caller ∧
        User.findById (updateMe ALLOWED_SKILLS s reqUser body).2 caller._id = some stored ∧
        stored.select = view ∧
        (stored.skills ≠ [] ↔ stored.role = "professional") ∧
        ∀ x ∈ stored.skills, x ∈ ALLOWED_SKILLS) ∧
    (∀ caller user, reqUser = some caller → User.findById s caller._id = some user →
      (withRole user body.role).role = "professional" →
      body.badSkills ALLOWED_SKILLS = true →
      (∃ message, (updateMe ALLOWED_SKILLS s reqUser body).1 = .failure 400 message) ∧
        (updateMe ALLOWED_SKILLS s reqUser body).2 = s) := by
  constructor
  · intro view hview
    rcases updateMe_cases ALLOWED_SKILLS s reqUser body with hc | hc
    · obtain ⟨⟨code, message, hf⟩, -⟩ := hc
      rw [hf] at hview
      exact absurd hview (by simp)
    · obtain ⟨caller, user, doc, hreq, hfind, hid, hv, hres⟩ := hc
      rw [hres] at hview ⊢
      have hsel : doc.select = view := UserResponse.success.inj hview
      refine ⟨caller, doc, hreq, ?_, hsel, ?_, ?_⟩
      · show User.findById { s with users := updateUser s.users doc } caller._id = some doc
        unfold User.findById at hfind ⊢
        simp only [find_updateUser, hid, if_true, hfind]
        rfl
      · rcases (skillsValidator_iff _ _ _).1 (validate_skills hv) with h | h
        · exact ⟨fun hne => absurd h.2 hne, fun hr => absurd hr h.1⟩
        · exact ⟨fun _ => h.1, fun _ => h.2.1⟩
      · rcases (skillsValidator_iff _ _ _).1 (validate_skills hv) with h | h
        · intro x hx; rw [h.2] at hx; exact absurd hx (List.not_mem_nil x)
        · exact h.2.2
  · intro caller user hreq hfind hrole hbad
    have hrole1 : (withRole (withName user body.name) body.role).role = "professional" := by
      rw [withRole_withName_role]; exact hrole
    unfold updateMe
    simp only [hreq, hfind, hrole1, if_true]
    cases hskills : body.skills with
    | none => exact ⟨⟨_, rfl⟩, rfl⟩
    | some skills =>
      simp only []
      by_cases hlen : skills.length = 0
      · rw [if_pos hlen]; exact ⟨⟨_, rfl⟩, rfl⟩
      · rw [if_neg hlen]
        have hnil : skills ≠ [] := fun h => hlen (by rw [h]; rfl)
        have hany : skills.any (fun x => !ALLOWED_SKILLS.contains x) = true := by
          simpa [ProfileBody.badSkills, hskills, hnil] using hbad
        have hinv : (skills.filter (fun x => !ALLOWED_SKILLS.contains x)).length > 0 := by
          obtain ⟨x, hx, hp⟩ := List.any_eq_true.1 hany
          exact List.length_pos_of_mem (List.mem_filter.2 ⟨hx, hp⟩)
        rw [if_pos hinv]
        exact ⟨⟨_, rfl⟩, rfl⟩

/-- C27 (witness): the client `exOther` becomes a painter; a body with a skill
outside the list is refused. -/
theorem C27_profile_update_witness :
    (∃ caller stored, some exOther = some caller ∧
      User.findById (updateMe validCategories exCreated (some exOther) exProfileBody).2
        caller._id = some stored ∧
      stored.select = exPainter.select ∧
      (stored.skills ≠ [] ↔ stored.role = "professional") ∧
      ∀ x ∈ stored.skills, x ∈ validCategories) ∧
    ((∃ message, (updateMe validCategories exCreated (some exOther) exProfileBodyBad).1 =
        .failure 400 message) ∧
      (updateMe validCategories exCreated (some exOther) exProfileBodyBad).2 = exCreated) :=
  ⟨(C27_profile_update validCategories exCreated (some exOther) exProfileBody).1
      exPainter.select (by decide),
    (C27_profile_update validCategories exCreated (some exOther) exProfileBodyBad).2
      exOther exOther rfl (by decide) (by decide) (by decide)⟩

/-! ## The frame of the transitions -/

theorem updateOne_split {rs : List Request} {id : Nat} {r : Request} (doc : Request)
    (h : rs.find? (fun x => decide (x._id = id)) = some r) (hid : doc._id = id) :
    ∃ before after, rs = before ++ r :: after ∧ updateOne rs doc = before ++ doc :: after := by
  induction rs with
  | nil => simp at h
  | cons x xs ih =>
    by_cases hx : x._id = id
    · have hxr : x = r := by simpa [List.find?_cons, hx] using h
      subst hxr
      exact ⟨[], xs, rfl, by simp [updateOne, hx, hid]⟩
    · have h1 : xs.find? (fun x => decide (x._id = id)) = some r := by
        simpa [List.find?_cons, hx] using h
      obtain ⟨b, a, h2, h3⟩ := ih h1
      refine ⟨x :: b, a, by rw [h2]; rfl, ?_⟩
      have hne : ¬ x._id = doc._id := by rw [hid]; exact hx
      simp [updateOne, hne, h3]

theorem advancedDoc_sameFixedFields (r : Request) (target : String) (now : Nat) :
    (advancedDoc r target now).sameFixedFields r := by
  unfold advancedDoc
  split <;> exact ⟨rfl, rfl, rfl, rfl, rfl, rfl, rfl, rfl, rfl, rfl⟩

/-- C29: a successful `advanceStatus` replaces the request by a document that
differs from it at most in `status`, `completedDate` and `updatedAt`, and a
successful `assignProfessional` by one that differs at most in `professional`,
`status` and `updatedAt`; the requests stored before and after it in the
collection are the same. -/
theorem C29_frame_of_transitions (s : State) (caller : User) (id : Nat)
    (professionalId : Option Nat) (status : Option String) (now code : Nat) (saved : Request) :
    ((advanceStatus s caller id status now).1 = .success code saved →
      ∃ request before after, Request.findById s id = some request ∧
        s.requests = before ++ request :: after ∧
        (advanceStatus s caller id status now).2.requests = before ++ saved :: after ∧
        saved.sameFixedFields request ∧ saved.professional = request.professional) ∧
    ((assignProfessional s caller id professionalId now).1 = .success code saved →
      ∃ request before after, Request.findById s id = some request ∧
        s.requests = before ++ request :: after ∧
        (assignProfessional s caller id professionalId now).2.requests =
          before ++ saved :: after ∧
        saved.sameFixedFields request ∧ saved.completedDate = request.completedDate) := by
  constructor
  · intro h
    rcases advanceStatus_cases s caller id status now with hc | hc
    · rw [h] at hc
      exact absurd hc.1 (by simp [Response.isFailure])
    · obtain ⟨target, request, saved1, -, -, hfind, -, hsave, hres⟩ := hc
      rw [h] at hres
      obtain rfl : saved = saved1 := (Response.success.inj hres).2
      obtain ⟨-, hsaved, hs1⟩ := save_eq_some hsave
      have hff : saved.sameFixedFields request := by
        rw [hsaved]; exact advancedDoc_sameFixedFields request target now
      obtain ⟨before, after, hb, ha⟩ :=
        updateOne_split saved hfind (hff.1.trans (findById_id hfind).1)
      refine ⟨request, before, after, hfind, hb, by rw [hs1]; exact ha, hff, ?_⟩
      rw [hsaved]
      exact advancedDoc_professional request target now
  · intro h
    rcases assignProfessional_cases s caller id professionalId now with hc | hc
    · rw [h] at hc
      exact absurd hc.1 (by simp [Response.isFailure])
    · obtain ⟨pid, request, professional, saved1, -, hfind, -, -, -, -, hsave, hres⟩ := hc
      rw [h] at hres
      obtain rfl : saved = saved1 := (Response.success.inj hres).2
      obtain ⟨-, hsaved, hs1⟩ := save_eq_some hsave
      have hff : saved.sameFixedFields request := by
        rw [hsaved]; exact ⟨rfl, rfl, rfl, rfl, rfl, rfl, rfl, rfl, rfl, rfl⟩
      obtain ⟨before, after, hb, ha⟩ :=
        updateOne_split saved hfind (hff.1.trans (findById_id hfind).1)
      exact ⟨request, before, after, hfind, hb, by rw [hs1]; exact ha, hff, by rw [hsaved]⟩

/-- C29 (witness): the second of three requests is accepted, the third one is
sent to the plumber. -/
theorem C29_frame_of_transitions_witness :
    (∃ request before after, Request.findById exThree 1 = some request ∧
      exThree.requests = before ++ request :: after ∧
      (advanceStatus exThree exPlumber 1 (some "accepted") 14).2.requests =
        before ++ exSecondAccepted :: after ∧
      exSecondAccepted.sameFixedFields request ∧
      exSecondAccepted.professional = request.professional) ∧
    (∃ request before after, Request.findById exThree 2 = some request ∧
      exThree.requests = before ++ request :: after ∧
      (assignProfessional exThree exClient 2 (some 2) 14).2.requests =
        before ++ exThirdAssigned :: after ∧
      exThirdAssigned.sameFixedFields request ∧
      exThirdAssigned.completedDate = request.completedDate) :=
  ⟨(C29_frame_of_transitions exThree exPlumber 1 none (some "accepted") 14 200
      exSecondAccepted).1 (by decide),
    (C29_frame_of_transitions exThree exClient 2 (some 2) none 14 200
      exThirdAssigned).2 (by decide)⟩

/-! ## Professionals by category -/

/-- C30: for a category of the list, the lookup answers with the users whose
role is `professional` and whose skills contain the category, in the order of
the collection and without their password hash, or with the 404 that carries
an empty list when there is none; for any other string it answers 400
`Invalid category`, whatever the collection; it writes nothing. -/
theorem C30_professionals_by_category (s : State) (category : String) :
    (category ∈ validCategories →
      (s.users.filter (fun u => decide (u.role = "professional" ∧ category ∈ u.skills)) ≠ [] →
        (professionalsByCategory s category).1 =
          .success ((s.users.filter (fun u =>
            decide (u.role = "professional" ∧ category ∈ u.skills))).map User.select)) ∧
      (s.users.filter (fun u => decide (u.role = "professional" ∧ category ∈ u.skills)) = [] →
        (professionalsByCategory s category).1 =
          .failure 404 "No professionals found for this category" (some []))) ∧
    (category ∉ validCategories →
      ∀ s1 : State, (professionalsByCategory s1 category).1 =
        .failure 400 "Invalid category" none) ∧
    (professionalsByCategory s category).2 = s := by
  have hfilter : s.users.filter (fun u =>
        decide (u.role = "professional") && u.skills.contains category) =
      s.users.filter (fun u => decide (u.role = "professional" ∧ category ∈ u.skills)) := by
    apply List.filter_congr
    intro u _
    simp
  refine ⟨fun hcat => ?_, fun hcat s1 => ?_, ?_⟩
  · have hc : (!validCategories.contains category) = false := by simpa using hcat
    unfold professionalsByCategory
    simp only [hc, hfilter, Bool.false_eq_true, if_false, List.length_map]
    constructor
    · intro hne
      rw [if_neg (fun h => hne (List.length_eq_zero.1 h))]
    · intro he
      rw [if_pos (by rw [he]; rfl)]
  · have hc : (!validCategories.contains category) = true := by simpa using hcat
    unfold professionalsByCategory
    rw [if_pos hc]
  · unfold professionalsByCategory
    split
    · rfl
    · dsimp only
      split <;> rfl

/-- C30 (witness): one plumber, no painter, and no juggler category. -/
theorem C30_professionals_by_category_witness :
    (professionalsByCategory exCreated "plumbing").1 = .success [exPlumber.select] ∧
    (professionalsByCategory exCreated "painting").1 =
      .failure 404 "No professionals found for this category" (some []) ∧
    (∀ s1 : State, (professionalsByCategory s1 "juggling").1 =
      .failure 400 "Invalid category" none) :=
  ⟨((C30_professionals_by_category exCreated "plumbing").1 (by decide)).1 (by decide),
    ((C30_professionals_by_category exCreated "painting").1 (by decide)).2 (by decide),
    (C30_professionals_by_category exCreated "juggling").2.1 (by decide)⟩

end QuickFix
